import Mathlib

/-!
Shallow embedding of `getow.py` (davbee/Weather): the location-resolution
and data-reconciliation engine of a Flask weather application.

Strings are modelled as lists of character codes (`Str := List Nat`), with
Python's ASCII `lower`/`upper`/`title`/`strip`/`split(",")` semantics.
External effects (the OpenWeather HTTP call, the Nominatim geocoder, the
timezone-by-coordinate lookup, and the wall clock) are supplied as oracles
in an `Env` structure; observable side effects (fetch calls, geocode calls
and their failure logs, retry sleeps, timezone lookups, and the
invalid-format log) are recorded in an event trace.  Floating-point
formatting of temperatures and coordinates is not interpreted: those fields
carry the raw oracle-supplied values.
-/

/-- Character codes, as Python strings restricted to ASCII. -/
abbrev Str := List Nat

/-- Embed a Lean string literal as a list of character codes. -/
def strLit (s : String) : Str := s.data.map Char.toNat

/-- ASCII lower-case letter. -/
def isLowerAlpha (c : Nat) : Bool := 97 ≤ c && c ≤ 122

/-- ASCII upper-case letter. -/
def isUpperAlpha (c : Nat) : Bool := 65 ≤ c && c ≤ 90

/-- The cased characters of the modelled domain: ASCII letters and the
sharp s ß (U+00DF, code 223), Python's canonical case-expansion point.
Code points outside this domain are treated as caseless; every theorem
about casing below is stated on ASCII strings (where the model agrees
with Python exactly) or at ß itself. -/
def isCased (c : Nat) : Bool := isLowerAlpha c || isUpperAlpha c || c == 223

/-- Python `str.lower` on one character of the domain: ASCII upper-case
letters shift down; `'ß'.lower()` is `'ß'` itself, so 223 is kept. -/
def toLowerChar (c : Nat) : Nat := if isUpperAlpha c then c + 32 else c

/-- Python `str.upper` on one character: ASCII lower-case letters shift
up, and ß expands to the two characters "SS" (`'ß'.upper() == 'SS'`). -/
def toUpperChar (c : Nat) : List Nat :=
  if isLowerAlpha c then [c - 32]
  else if c == 223 then [83, 83]
  else [c]

/-- Python titlecase of one character in word-initial position: ASCII
lower-case letters shift up, and ß expands to "Ss"
(`'ß'.title() == 'Ss'`). -/
def toTitleChar (c : Nat) : List Nat :=
  if isLowerAlpha c then [c - 32]
  else if c == 223 then [83, 115]
  else [c]

/-- Python `str.lower`. -/
def pyLower (s : Str) : Str := s.map toLowerChar

/-- Python `str.upper`. -/
def pyUpper (s : Str) : Str := (s.map toUpperChar).flatten

/-- Helper for `pyTitle`: the flag records whether the previous character
was cased. A cased character is titlecased at the start of a word and
lower-cased inside one. -/
def pyTitleGo : Bool → Str → Str
  | _, [] => []
  | prevCased, c :: rest =>
      (if isCased c then
        (if prevCased then [toLowerChar c] else toTitleChar c)
       else [c]) ++ pyTitleGo (isCased c) rest

/-- Python `str.title`: a cased character is titlecased when the
preceding character is not cased, lower-cased otherwise. -/
def pyTitle (s : Str) : Str := pyTitleGo false s

/-- Strings lying entirely in 7-bit ASCII: on these the casing model
agrees with Python character for character. -/
def asciiStr (s : Str) : Bool := s.all (fun c => decide (c < 128))

/-- Python whitespace (ASCII): space, tab, newline, vertical tab, form
feed, carriage return. -/
def isSpace (c : Nat) : Bool :=
  c == 32 || c == 9 || c == 10 || c == 11 || c == 12 || c == 13

/-- Python `str.strip()` with no argument: remove leading and trailing
whitespace. -/
def pyStrip (s : Str) : Str :=
  ((s.dropWhile isSpace).reverse.dropWhile isSpace).reverse

/-- Helper for `splitComma`, accumulating the current field reversed. -/
def splitCommaGo : Str → Str → List Str
  | acc, [] => [acc.reverse]
  | acc, c :: rest =>
      if c == 44 then acc.reverse :: splitCommaGo [] rest
      else splitCommaGo (c :: acc) rest

/-- Python `str.split(",")`: split at every comma; the empty string yields
one empty field. -/
def splitComma (s : Str) : List Str := splitCommaGo [] s

/-- Three-way comparison of strings by code point, as Python's `<` on
`str`. -/
def strCmp : Str → Str → Ordering
  | [], [] => .eq
  | [], _ :: _ => .lt
  | _ :: _, [] => .gt
  | a :: s, b :: t =>
      if a < b then .lt else if b < a then .gt else strCmp s t

/-! ### Weather fetcher (`fetch_weather_data`, getow.py lines 83-111) -/

/-- Coordinates and temperatures carry the oracle-supplied numeric values;
their decimal formatting is presentation only and not interpreted. -/
abbrev Coord := Int

/-- The fields of the OpenWeather JSON body that `fetch_weather_data`
reads; a field the response lacks is `none` (reading it raises `KeyError`
in Python). -/
structure JsonBody where
  mainTemp : Option Int
  mainHumidity : Option Int
  weather0Description : Option Str
  coordLat : Option Coord
  coordLon : Option Coord
deriving DecidableEq, Repr

/-- Outcome of the single `requests.get` call made by
`fetch_weather_data`. -/
inductive HttpResult where
  /-- `requests.exceptions.Timeout` was raised. -/
  | timeout
  /-- Another `requests.exceptions.RequestException` was raised. -/
  | requestError
  /-- A response arrived, with its status code and JSON body. -/
  | response (status : Nat) (body : JsonBody)
deriving DecidableEq, Repr

/-- The dictionary `fetch_weather_data` returns on success (lines
95-102). -/
structure Observation where
  temperature : Int
  humidity : Int
  conditions : Str
  latitude : Coord
  longitude : Coord
deriving DecidableEq, Repr

/-- How `fetch_weather_data` terminates: a normal return (of `None` or an
observation dict), or an uncaught exception propagating to the caller. -/
inductive FetchOutcome where
  /-- The function returned this value (`none` models Python `None`). -/
  | ret (r : Option Observation)
  /-- The function raised to its caller (a `KeyError` from a missing JSON
  field on a 200 response is not caught by the `requests` handlers). -/
  | exn
deriving DecidableEq, Repr

/-- `fetch_weather_data` (lines 83-111): on status 200 it reads
`data["main"]["temp"]`, `data["main"]["humidity"]`,
`data["weather"][0]["description"]`, `data["coord"]["lat"]`,
`data["coord"]["lon"]`; a missing field raises `KeyError`, which matches
neither `except` clause. Non-200 statuses, timeouts, and transport errors
return `None`. -/
def fetch_weather_data (http : HttpResult) : FetchOutcome :=
  match http with
  | .timeout => .ret none
  | .requestError => .ret none
  | .response status body =>
      if status == 200 then
        match body.mainTemp, body.mainHumidity, body.weather0Description,
              body.coordLat, body.coordLon with
        | some t, some h, some d, some la, some lo =>
            .ret (some ⟨t, h, d, la, lo⟩)
        | _, _, _, _, _ => .exn
      else .ret none

/-! ### Geocoding with retry (`retry_geocode`, getow.py lines 114-123) -/

/-- Outcome of one `geolocator.geocode` call. -/
inductive GeoAttempt where
  /-- The call raised an exception. -/
  | raises
  /-- The call returned a falsy result (`None`). -/
  | empty
  /-- The call returned a location with these coordinates. -/
  | found (lat lon : Coord)
deriving DecidableEq, Repr

/-- Observable side effects of a request, in program order. -/
inductive Event where
  /-- A `fetch_weather_data` call for (city, state, country). -/
  | fetchCall (city state country : Str)
  /-- One `geolocator.geocode(query)` call inside `retry_geocode`. -/
  | geoCall (query : Str)
  /-- The `print` of a failed geocoding attempt (1-based number). -/
  | geoLog (attempt : Nat)
  /-- A `sleep(delay)` inside `retry_geocode`. -/
  | geoSleep (delay : Nat)
  /-- A `tf.timezone_at(lng, lat)` lookup. -/
  | tzCall (lng lat : Coord)
  /-- The `print` of `Invalid location format` for a user submission. -/
  | formatFailureLog (s : Str)
deriving DecidableEq, Repr

/-- The loop of `retry_geocode`: `attempt` is the current 0-based loop
index, the second argument the remaining iterations. A truthy result
returns at once; an exception is logged and followed by `sleep(delay)`; a
falsy result falls through to the next iteration with no log and no
sleep. -/
def retryGeocodeGo (oracle : Nat → GeoAttempt) (q : Str) (delay : Nat) :
    Nat → Nat → Option (Coord × Coord) × List Event
  | _, 0 => (none, [])
  | attempt, fuel + 1 =>
      match oracle attempt with
      | .found la lo => (some (la, lo), [.geoCall q])
      | .empty =>
          let rest := retryGeocodeGo oracle q delay (attempt + 1) fuel
          (rest.1, .geoCall q :: rest.2)
      | .raises =>
          let rest := retryGeocodeGo oracle q delay (attempt + 1) fuel
          (rest.1, .geoCall q :: .geoLog (attempt + 1) :: .geoSleep delay :: rest.2)

/-- `retry_geocode(location_query, retries=3, delay=5)` (lines 114-123):
returns the first truthy geocode result, or `None` after `retries`
attempts; never raises. -/
def retry_geocode (oracle : Nat → GeoAttempt) (q : Str)
    (retries delay : Nat) : Option (Coord × Coord) × List Event :=
  retryGeocodeGo oracle q delay 0 retries

/-! ### Records, keys, and the snapshot dictionary -/

/-- One entry of the global `weather_data` list: the dict built at lines
170-180 / 216-226. `local_time` is the formatted string the clock oracle
produced for the record's timezone; `coordinates` and `temperature` carry
the raw values whose decimal formatting is not interpreted. -/
structure WeatherRecord where
  local_time : Str
  city : Str
  state : Str
  country : Str
  coordinates : Coord × Coord
  temperature : Int
  humidity : Int
  conditions : Str
deriving DecidableEq, Repr

/-- The canonical location identity: lower-cased (city, state, country). -/
abbrev LocationKey := Str × Str × Str

/-- The key a stored record is re-filed under each cycle (lines 183-186):
lower-casing its display-cased fields. -/
def recordKey (e : WeatherRecord) : LocationKey :=
  (pyLower e.city, pyLower e.state, pyLower e.country)

/-- A predefined location entry (lines 135-153). -/
structure LocationSpec where
  city : Str
  state : Str
  country : Str
  tz : Str
deriving DecidableEq, Repr

/-- A predefined location whose three name fields are ASCII. -/
def asciiSpec (s : LocationSpec) : Bool :=
  asciiStr s.city && asciiStr s.state && asciiStr s.country

/-- The key under which a freshly built record is inserted (line 169 /
line 198): lower-casing the input fields. -/
def specKey (city state country : Str) : LocationKey :=
  (pyLower city, pyLower state, pyLower country)

/-- The geocoder query `f"{city}, {state}, {country}"` (line 160/202). -/
def locQuery (city state country : Str) : Str :=
  city ++ strLit ", " ++ state ++ strLit ", " ++ country

/-- The predefined locations dict (lines 135-153), in insertion order. -/
def locations : List LocationSpec :=
  [ ⟨strLit "Delta", strLit "BC", strLit "Canada", strLit "America/Vancouver"⟩,
    ⟨strLit "Kelowna", strLit "BC", strLit "Canada", strLit "America/Vancouver"⟩,
    ⟨strLit "Saskatoon", strLit "SA", strLit "Canada", strLit "America/Regina"⟩,
    ⟨strLit "Beijing", strLit "Beijing", strLit "China", strLit "Asia/Shanghai"⟩,
    ⟨strLit "Hangzhou", strLit "Zhejiang", strLit "China", strLit "Asia/Shanghai"⟩,
    ⟨strLit "Ningbo", strLit "Zhejiang", strLit "China", strLit "Asia/Shanghai"⟩,
    ⟨strLit "Shanghai", strLit "Shanghai", strLit "China", strLit "Asia/Shanghai"⟩,
    ⟨strLit "Shaoxing", strLit "Zhejiang", strLit "China", strLit "Asia/Shanghai"⟩,
    ⟨strLit "Tokyo", strLit "Tokyo", strLit "Japan", strLit "Asia/Tokyo"⟩,
    ⟨strLit "Berkeley", strLit "CA", strLit "US", strLit "America/Los_Angeles"⟩,
    ⟨strLit "Cronton-on-Hudson", strLit "NY", strLit "US", strLit "America/New_York"⟩,
    ⟨strLit "Yonkers", strLit "NY", strLit "US", strLit "America/New_York"⟩,
    ⟨strLit "Cronton", strLit "NY", strLit "US", strLit "America/New_York"⟩,
    ⟨strLit "Honolulu", strLit "HI", strLit "US", strLit "Pacific/Honolulu"⟩,
    ⟨strLit "Lynnwood", strLit "WA", strLit "US", strLit "America/los_Angeles"⟩,
    ⟨strLit "Milpitas", strLit "CA", strLit "US", strLit "America/Los_Angeles"⟩,
    ⟨strLit "San Jose", strLit "CA", strLit "US", strLit "America/Los_Angeles"⟩ ]

/-- The insertion-ordered dictionary, as Python `dict`: an association
list with pairwise-distinct keys, earliest-inserted first. -/
abbrev Dict := List (LocationKey × WeatherRecord)

/-- Python `d[k]` presence test / lookup. -/
def lookupD (d : Dict) (k : LocationKey) : Option WeatherRecord :=
  match d.find? (fun kv => kv.1 = k) with
  | some kv => some kv.2
  | none => none

/-- Python `d[k] = v`: replace in place when the key exists (dict order
keeps the key's original position), append otherwise. -/
def dictInsert (d : Dict) (k : LocationKey) (v : WeatherRecord) : Dict :=
  if (lookupD d k).isSome then
    d.map (fun kv => if kv.1 = k then (k, v) else kv)
  else d ++ [(k, v)]

/-- The dict comprehension at lines 183-186: re-key the stored list by the
lower-cased display fields. -/
def rebuildDict (l : List WeatherRecord) : Dict :=
  l.foldl (fun d e => dictInsert d (recordKey e) e) []

/-- Python `d.update(other)` (line 187): insert `other`'s entries into `d`
in order. -/
def mergeDicts (d other : Dict) : Dict :=
  other.foldl (fun acc kv => dictInsert acc kv.1 kv.2) d

/-- Python `list(d.values())`. -/
def dictValues (d : Dict) : List WeatherRecord := d.map Prod.snd

/-! ### The request handler (`get_all_weather_data`, lines 130-296) -/

/-- The external world, fixed for the duration of one request: the
OpenWeather response per (city, state, country), the geocoder outcome per
(query, 0-based attempt index), the timezone-by-coordinate table
(`tf.timezone_at(lng=…, lat=…)`; `none` or the empty string are falsy),
and the formatted local clock per timezone name
(`datetime.now(pytz.timezone(tz)).strftime(...)`). -/
structure Env where
  fetch : Str → Str → Str → HttpResult
  geo : Str → Nat → GeoAttempt
  tzAt : Coord → Coord → Option Str
  now : Str → Str

/-- The record dict literal at lines 170-180 / 216-226: display casing is
city title-cased, state and country upper-cased; coordinates come from the
geocoder, weather fields from the observation, local time from the clock
oracle at the given timezone. -/
def buildRecord (env : Env) (city state country tz : Str)
    (obs : Observation) (lat lon : Coord) : WeatherRecord :=
  { local_time := env.now tz
    city := pyTitle city
    state := pyUpper state
    country := pyUpper country
    coordinates := (lat, lon)
    temperature := obs.temperature
    humidity := obs.humidity
    conditions := obs.conditions }

/-- How one iteration of the refresh loop (lines 157-180) ends. -/
inductive StepResult where
  /-- `fetch_weather_data` raised; the exception propagates. -/
  | raised
  /-- The location is skipped this cycle (fetch returned `None`, or
  geocoding failed). -/
  | skip
  /-- A record was built for this key. -/
  | merged (k : LocationKey) (r : WeatherRecord)
deriving DecidableEq, Repr

/-- One iteration of the refresh loop for a predefined location: fetch,
then geocode with retry, then build the record keyed by the lower-cased
spec fields, using the spec's static timezone. -/
def processLocation (env : Env) (s : LocationSpec) : StepResult × List Event :=
  match fetch_weather_data (env.fetch s.city s.state s.country) with
  | .exn => (.raised, [.fetchCall s.city s.state s.country])
  | .ret none => (.skip, [.fetchCall s.city s.state s.country])
  | .ret (some obs) =>
      match retry_geocode
          (env.geo (locQuery s.city s.state s.country))
          (locQuery s.city s.state s.country) 3 5 with
      | (none, gev) => (.skip, .fetchCall s.city s.state s.country :: gev)
      | (some (la, lo), gev) =>
          (.merged (specKey s.city s.state s.country)
            (buildRecord env s.city s.state s.country s.tz obs la lo),
           .fetchCall s.city s.state s.country :: gev)

/-- The refresh loop (lines 156-180), accumulating `refreshed_data`.
Returns `none` when an uncaught exception aborts the request (the global
list is then still the pre-request value, since line 188 was not
reached). -/
def refreshLoop (env : Env) : List LocationSpec → Dict →
    Option Dict × List Event
  | [], acc => (some acc, [])
  | s :: rest, acc =>
      match processLocation env s with
      | (.raised, ev) => (none, ev)
      | (.skip, ev) =>
          let r := refreshLoop env rest acc
          (r.1, ev ++ r.2)
      | (.merged k rec, ev) =>
          let r := refreshLoop env rest (dictInsert acc k rec)
          (r.1, ev ++ r.2)

/-- How the user-submission block (lines 191-231) ends. -/
inductive UserOutcome where
  /-- An uncaught exception (the user fetch raised `KeyError`; only
  `ValueError` is caught). -/
  | raisedU
  /-- Normal fall-through to the sort, with the dict and list as left. -/
  | doneU (wdd : Dict) (wd : List WeatherRecord)
deriving DecidableEq, Repr

/-- The timezone default of lines 210-211: `if not timezone: timezone =
"UTC"` — both `None` and the empty string are falsy. -/
def tzOrUTC (t : Option Str) : Str :=
  match t with
  | none => strLit "UTC"
  | some v => if v = [] then strLit "UTC" else v

/-- The record built and inserted for a user submission with trimmed
fields (city, state, country), coordinates (la, lo) from the geocoder,
and the coordinate-derived timezone. -/
def userRecord (env : Env) (city state country : Str) (obs : Observation)
    (la lo : Coord) : WeatherRecord :=
  buildRecord env city state country (tzOrUTC (env.tzAt lo la)) obs la lo

/-- The POST user-submission block (lines 191-231): strip the form value;
skip silently when empty; unpack `split(",")` into three fields (a
different field count raises `ValueError`, caught and logged); strip each
field; skip when the key already exists; otherwise fetch, geocode, look up
the timezone by coordinates, build and insert the record, and refresh the
list from the dict. -/
def userStep (env : Env) (loc : Str) (wdd : Dict)
    (wd1 : List WeatherRecord) : UserOutcome × List Event :=
  if pyStrip loc = [] then (.doneU wdd wd1, [])
  else
    match splitComma (pyStrip loc) with
    | [c0, s0, k0] =>
        if (lookupD wdd
            (specKey (pyStrip c0) (pyStrip s0) (pyStrip k0))).isSome then
          (.doneU wdd wd1, [])
        else
          match fetch_weather_data
              (env.fetch (pyStrip c0) (pyStrip s0) (pyStrip k0)) with
          | .exn =>
              (.raisedU, [.fetchCall (pyStrip c0) (pyStrip s0) (pyStrip k0)])
          | .ret none =>
              (.doneU wdd wd1,
               [.fetchCall (pyStrip c0) (pyStrip s0) (pyStrip k0)])
          | .ret (some obs) =>
              match retry_geocode
                  (env.geo (locQuery (pyStrip c0) (pyStrip s0) (pyStrip k0)))
                  (locQuery (pyStrip c0) (pyStrip s0) (pyStrip k0)) 3 5 with
              | (none, gev) =>
                  (.doneU wdd wd1,
                   .fetchCall (pyStrip c0) (pyStrip s0) (pyStrip k0) :: gev)
              | (some (la, lo), gev) =>
                  (.doneU
                    (dictInsert wdd
                      (specKey (pyStrip c0) (pyStrip s0) (pyStrip k0))
                      (userRecord env (pyStrip c0) (pyStrip s0) (pyStrip k0)
                        obs la lo))
                    (dictValues
                      (dictInsert wdd
                        (specKey (pyStrip c0) (pyStrip s0) (pyStrip k0))
                        (userRecord env (pyStrip c0) (pyStrip s0) (pyStrip k0)
                          obs la lo))),
                   .fetchCall (pyStrip c0) (pyStrip s0) (pyStrip k0) ::
                     (gev ++ [.tzCall lo la]))
    | _ => (.doneU wdd wd1, [.formatFailureLog (pyStrip loc)])

/-- The sort key of line 234: the display (country, state, city). -/
def sortKey (e : WeatherRecord) : Str × Str × Str :=
  (e.country, e.state, e.city)

/-- Resolve one component of a lexicographic comparison: strictly smaller
wins, strictly greater loses, equal defers to the remaining components. -/
def leOfCmp (o : Ordering) (rest : Bool) : Bool :=
  match o with
  | .lt => true
  | .gt => false
  | .eq => rest

/-- Non-strict tuple comparison used by `weather_data.sort(key=...)`:
lexicographic on (country, state, city) by code-point string order. -/
def tripleLe (x y : Str × Str × Str) : Bool :=
  leOfCmp (strCmp x.1 y.1)
    (leOfCmp (strCmp x.2.1 y.2.1)
      (leOfCmp (strCmp x.2.2 y.2.2) true))

/-- The non-strict ordering `weather_data.sort` uses, as a relation. -/
def recordLe (a b : WeatherRecord) : Prop :=
  tripleLe (sortKey a) (sortKey b) = true

instance : DecidableRel recordLe := fun a b =>
  inferInstanceAs (Decidable (tripleLe (sortKey a) (sortKey b) = true))

/-- `weather_data.sort(key=lambda x: (x["country"], x["state"],
x["city"]))` (line 234): a stable ascending sort. -/
def sortRecords (l : List WeatherRecord) : List WeatherRecord :=
  List.insertionSort recordLe l

/-- The request method. -/
inductive Method where
  | get
  | post
deriving DecidableEq, Repr

/-- One incoming request: the method and, for POST, the value of the
`location` form field (`request.form.get("location", "")`; an absent
field is the empty string). -/
structure Request where
  method : Method
  formLocation : Str
deriving DecidableEq, Repr

/-- Result of one request: the records rendered into the HTML table (in
row order) when the handler returned normally, or `none` when an uncaught
exception escaped; the global `weather_data` after the request; and the
event trace. -/
structure ReqResult where
  view : Option (List WeatherRecord)
  state : List WeatherRecord
  events : List Event
deriving DecidableEq, Repr

/-- `get_all_weather_data` (lines 130-296): refresh every predefined
location into `refreshed_data`; re-key the stored list and merge the
refreshed dict over it (lines 183-188); on POST run the user-submission
block; sort the global list in place by (country, state, city); render it.
An uncaught exception leaves the global at its value at the raise point:
the pre-request list during the refresh loop, the merged list during the
user block. -/
def get_all_weather_data (env : Env) (req : Request)
    (wd0 : List WeatherRecord) : ReqResult :=
  match refreshLoop env locations [] with
  | (none, ev) => ⟨none, wd0, ev⟩
  | (some refreshed, ev1) =>
      match req.method with
      | .get =>
          ⟨some (sortRecords
             (dictValues (mergeDicts (rebuildDict wd0) refreshed))),
           sortRecords (dictValues (mergeDicts (rebuildDict wd0) refreshed)),
           ev1⟩
      | .post =>
          match userStep env req.formLocation
              (mergeDicts (rebuildDict wd0) refreshed)
              (dictValues (mergeDicts (rebuildDict wd0) refreshed)) with
          | (.raisedU, ev2) =>
              ⟨none, dictValues (mergeDicts (rebuildDict wd0) refreshed),
               ev1 ++ ev2⟩
          | (.doneU _ wd2, ev2) =>
              ⟨some (sortRecords wd2), sortRecords wd2, ev1 ++ ev2⟩

/-- The keys of a dictionary, in insertion order. -/
def dictKeys (d : Dict) : List LocationKey := d.map Prod.fst

/-- Well-formedness tying each entry to its key: every stored record
re-files under exactly the key it sits at. -/
def DictWF (d : Dict) : Prop := ∀ kv ∈ d, recordKey kv.2 = kv.1

/-- The canonical key of a predefined location. -/
def specKeyOf (s : LocationSpec) : LocationKey :=
  specKey s.city s.state s.country

/-- Event classifiers used to state trace properties. -/
def isGeoCall : Event → Bool
  | .geoCall _ => true
  | _ => false

def isGeoLog : Event → Bool
  | .geoLog _ => true
  | _ => false

def isGeoSleep : Event → Bool
  | .geoSleep _ => true
  | _ => false

def isTzCall : Event → Bool
  | .tzCall _ _ => true
  | _ => false

def isFormatFailure : Event → Bool
  | .formatFailureLog _ => true
  | _ => false

def isFetchCall : Event → Bool
  | .fetchCall _ _ _ => true
  | _ => false

/-- Did a geocode attempt return a truthy location? -/
def isFound : GeoAttempt → Bool
  | .found _ _ => true
  | _ => false

/-- Did a geocode attempt raise? -/
def isRaises : GeoAttempt → Bool
  | .raises => true
  | _ => false

/-- Did the fetcher return an observation dict? -/
def isRetSome : FetchOutcome → Bool
  | .ret (some _) => true
  | _ => false

/-! ### Concrete fixtures for witnesses and counterexamples -/

/-- A fully populated OpenWeather response body. -/
def fullBody : JsonBody :=
  ⟨some 215, some 60, strLit "clear sky", some 47, some (-122)⟩

/-- A 200 response body with every expected field missing. -/
def emptyBody : JsonBody := ⟨none, none, none, none, none⟩

/-- Every fetch succeeds; geocoding succeeds on the first attempt. -/
def envAllOk : Env :=
  { fetch := fun _ _ _ => .response 200 fullBody
    geo := fun _ _ => .found 49 (-123)
    tzAt := fun _ _ => some (strLit "America/Vancouver")
    now := fun tz => tz }

/-- Every fetch gets an HTTP-OK response missing every expected field. -/
def envParseBug : Env := { envAllOk with fetch := fun _ _ _ => .response 200 emptyBody }

/-- Every fetch gets a non-success status. -/
def envFetch404 : Env := { envAllOk with fetch := fun _ _ _ => .response 404 fullBody }

/-- Like `envAllOk`, but the timezone-by-coordinate table is empty. -/
def envNoTz : Env := { envAllOk with tzAt := fun _ _ => none }

/-- Two records sharing the LocationKey (seattle, wa, us). -/
def recA : WeatherRecord :=
  ⟨strLit "t1", strLit "Seattle", strLit "WA", strLit "US", (1, 2), 100, 50,
   strLit "rain"⟩

def recB : WeatherRecord :=
  ⟨strLit "t2", strLit "Seattle", strLit "WA", strLit "US", (3, 4), 200, 60,
   strLit "sun"⟩

/-- A stale snapshot entry for the predefined location Delta, BC, Canada. -/
def deltaOld : WeatherRecord :=
  ⟨strLit "old-time", strLit "Delta", strLit "BC", strLit "CANADA", (0, 0),
   1, 2, strLit "old"⟩

/-- The first predefined location. -/
def deltaSpec : LocationSpec :=
  ⟨strLit "Delta", strLit "BC", strLit "Canada", strLit "America/Vancouver"⟩

/-- Geocode oracles: immediate success; success on the third attempt after
two exceptions; exception then empty results, never succeeding. -/
def geoOracleFound : Nat → GeoAttempt := fun _ => .found 7 8

def geoOracleThird : Nat → GeoAttempt :=
  fun n => if n < 2 then .raises else .found 7 8

def geoOracleFail : Nat → GeoAttempt :=
  fun n => if n = 0 then .raises else .empty

/-- The geocoder that always returns a falsy result. -/
def geoOracleEmpty : Nat → GeoAttempt := fun _ => .empty

/-! ### Lemmas: casing round-trips on the ASCII subdomain -/

theorem toLowerChar_toLowerChar (c : Nat) :
    toLowerChar (toLowerChar c) = toLowerChar c := by
  simp only [toLowerChar, isUpperAlpha, Bool.and_eq_true, decide_eq_true_eq]
  split_ifs <;> omega

theorem toLowerChar_sub32 (c : Nat) (h1 : 97 ≤ c) (h2 : c ≤ 122) :
    toLowerChar (c - 32) = c := by
  simp only [toLowerChar, isUpperAlpha, Bool.and_eq_true, decide_eq_true_eq]
  rw [if_pos ⟨by omega, by omega⟩]
  omega

theorem toLowerChar_of_lower (c : Nat) (h1 : 97 ≤ c) :
    toLowerChar c = c := by
  simp only [toLowerChar, isUpperAlpha, Bool.and_eq_true, decide_eq_true_eq]
  rw [if_neg (by omega)]

theorem map_toLowerChar_toUpperChar (c : Nat) (h : c < 128) :
    (toUpperChar c).map toLowerChar = [toLowerChar c] := by
  simp only [toUpperChar]
  by_cases hl : isLowerAlpha c = true
  · have h1 : 97 ≤ c ∧ c ≤ 122 := by
      simpa [isLowerAlpha] using hl
    rw [if_pos hl, List.map_cons, List.map_nil,
      toLowerChar_sub32 c h1.1 h1.2, toLowerChar_of_lower c h1.1]
  · rw [if_neg hl, if_neg (by simp; omega), List.map_cons, List.map_nil]

theorem map_toLowerChar_toTitleChar (c : Nat) (h : c < 128) :
    (toTitleChar c).map toLowerChar = [toLowerChar c] := by
  simp only [toTitleChar]
  by_cases hl : isLowerAlpha c = true
  · have h1 : 97 ≤ c ∧ c ≤ 122 := by
      simpa [isLowerAlpha] using hl
    rw [if_pos hl, List.map_cons, List.map_nil,
      toLowerChar_sub32 c h1.1 h1.2, toLowerChar_of_lower c h1.1]
  · rw [if_neg hl, if_neg (by simp; omega), List.map_cons, List.map_nil]

theorem pyLower_pyUpper (s : Str) (h : asciiStr s = true) :
    pyLower (pyUpper s) = pyLower s := by
  induction s with
  | nil => rfl
  | cons c rest ih =>
      simp only [asciiStr, List.all_cons, Bool.and_eq_true,
        decide_eq_true_eq] at h
      have ih' := ih (by simp only [asciiStr]; exact h.2)
      simp only [pyUpper, pyLower, List.map_cons, List.flatten_cons,
        List.map_append] at ih' ⊢
      rw [map_toLowerChar_toUpperChar c h.1, ih']
      rfl

theorem pyLower_pyTitleGo (s : Str) (h : asciiStr s = true) :
    ∀ b, pyLower (pyTitleGo b s) = pyLower s := by
  induction s with
  | nil => intro b; rfl
  | cons c rest ih =>
      intro b
      simp only [asciiStr, List.all_cons, Bool.and_eq_true,
        decide_eq_true_eq] at h
      have ih' := ih (by simp only [asciiStr]; exact h.2) (isCased c)
      simp only [pyTitleGo, pyLower, List.map_cons, List.map_append]
        at ih' ⊢
      split
      · split
        · rw [ih']
          simp [toLowerChar_toLowerChar c]
        · rw [map_toLowerChar_toTitleChar c h.1, ih']
          rfl
      · rw [ih']
        rfl

theorem pyLower_pyTitle (s : Str) (h : asciiStr s = true) :
    pyLower (pyTitle s) = pyLower s :=
  pyLower_pyTitleGo s h false

/-- For ASCII inputs the display casing applied by the record builder is
invisible to the lower-cased key: the built record re-files under exactly
its insertion key.  (This fails off ASCII: ß displays as "SS" and
re-files under "ss".) -/
theorem recordKey_buildRecord (env : Env) (city state country tz : Str)
    (obs : Observation) (la lo : Coord) (hc : asciiStr city = true)
    (hs : asciiStr state = true) (hk : asciiStr country = true) :
    recordKey (buildRecord env city state country tz obs la lo) =
      specKey city state country := by
  simp only [recordKey, buildRecord, specKey, pyLower_pyUpper state hs,
    pyLower_pyUpper country hk]
  rw [pyLower_pyTitle city hc]

/-! ### Lemmas: the string comparison is a total preorder -/

theorem strCmp_eq_iff : ∀ s t : Str, strCmp s t = .eq ↔ s = t := by
  intro s
  induction s with
  | nil => intro t; cases t <;> simp [strCmp]
  | cons a s ih =>
      intro t
      cases t with
      | nil => simp [strCmp]
      | cons b t =>
          simp only [strCmp]
          split
          · constructor
            · intro h; cases h
            · intro h; injection h with h1 _; omega
          · split
            · constructor
              · intro h; cases h
              · intro h; injection h with h1 _; omega
            · have hab : a = b := by omega
              subst hab
              simp [ih t]
theorem strCmp_gt_iff : ∀ s t : Str, strCmp s t = .gt ↔ strCmp t s = .lt := by
  intro s
  induction s with
  | nil => intro t; cases t <;> simp [strCmp]
  | cons a s ih =>
      intro t
      cases t with
      | nil => simp [strCmp]
      | cons b t =>
          simp only [strCmp]
          rcases Nat.lt_trichotomy a b with h | h | h
          · rw [if_pos h, if_neg (by omega), if_pos h]
            simp
          · subst h
            rw [if_neg (by omega), if_neg (by omega), if_neg (by omega),
              if_neg (by omega)]
            exact ih t
          · rw [if_neg (by omega), if_pos h, if_pos h]
            simp

theorem strCmp_lt_trans : ∀ s t u : Str,
    strCmp s t = .lt → strCmp t u = .lt → strCmp s u = .lt := by
  intro s
  induction s with
  | nil =>
      intro t u hst htu
      cases t with
      | nil => exact htu
      | cons b t =>
          cases u with
          | nil => simp [strCmp] at htu
          | cons c u => simp [strCmp]
  | cons a s ih =>
      intro t u hst htu
      cases t with
      | nil => simp [strCmp] at hst
      | cons b t =>
          cases u with
          | nil => simp [strCmp] at htu
          | cons c u =>
              simp only [strCmp] at hst htu ⊢
              have H1 : a < b ∨ (a = b ∧ strCmp s t = .lt) := by
                by_cases hab : a < b
                · exact .inl hab
                · by_cases hba : b < a
                  · rw [if_neg hab, if_pos hba] at hst; cases hst
                  · rw [if_neg hab, if_neg hba] at hst
                    exact .inr ⟨by omega, hst⟩
              have H2 : b < c ∨ (b = c ∧ strCmp t u = .lt) := by
                by_cases hbc : b < c
                · exact .inl hbc
                · by_cases hcb : c < b
                  · rw [if_neg hbc, if_pos hcb] at htu; cases htu
                  · rw [if_neg hbc, if_neg hcb] at htu
                    exact .inr ⟨by omega, htu⟩
              rcases H1 with hab | ⟨hab, hrec1⟩
              · rcases H2 with hbc | ⟨hbc, _⟩
                · rw [if_pos (by omega)]
                · rw [if_pos (by omega)]
              · rcases H2 with hbc | ⟨hbc, hrec2⟩
                · rw [if_pos (by omega)]
                · rw [if_neg (by omega), if_neg (by omega)]
                  exact ih t u hrec1 hrec2

theorem strCmp_self (s : Str) : strCmp s s = .eq :=
  (strCmp_eq_iff s s).2 rfl

theorem tripleLe_total (x y : Str × Str × Str) :
    tripleLe x y || tripleLe y x := by
  simp only [tripleLe]
  rcases h1 : strCmp x.1 y.1 with _ | _ | _
  · simp [leOfCmp]
  · have e1 : x.1 = y.1 := (strCmp_eq_iff _ _).1 h1
    have h1' : strCmp y.1 x.1 = .eq := (strCmp_eq_iff _ _).2 e1.symm
    rcases h2 : strCmp x.2.1 y.2.1 with _ | _ | _
    · simp [leOfCmp, h1']
    · have e2 : x.2.1 = y.2.1 := (strCmp_eq_iff _ _).1 h2
      have h2' : strCmp y.2.1 x.2.1 = .eq := (strCmp_eq_iff _ _).2 e2.symm
      rcases h3 : strCmp x.2.2 y.2.2 with _ | _ | _
      · simp [leOfCmp, h1', h2']
      · simp [leOfCmp, h1', h2']
      · have h3' : strCmp y.2.2 x.2.2 = .lt := (strCmp_gt_iff _ _).1 h3
        simp [leOfCmp, h1', h2', h3']
    · have h2' : strCmp y.2.1 x.2.1 = .lt := (strCmp_gt_iff _ _).1 h2
      simp [leOfCmp, h1', h2']
  · have h1' : strCmp y.1 x.1 = .lt := (strCmp_gt_iff _ _).1 h1
    simp [leOfCmp, h1']

theorem leOfCmp_trans (s t u : Str) (r1 r2 r3 : Bool)
    (hrec : r1 = true → r2 = true → r3 = true)
    (hxy : leOfCmp (strCmp s t) r1 = true)
    (hyz : leOfCmp (strCmp t u) r2 = true) :
    leOfCmp (strCmp s u) r3 = true := by
  rcases h1 : strCmp s t with _ | _ | _ <;> rw [h1] at hxy <;>
    simp only [leOfCmp] at hxy
  · rcases h2 : strCmp t u with _ | _ | _ <;> rw [h2] at hyz <;>
      simp only [leOfCmp] at hyz
    · rw [strCmp_lt_trans s t u h1 h2]; rfl
    · have e := (strCmp_eq_iff t u).1 h2
      subst e
      rw [h1]; rfl
    · cases hyz
  · have e := (strCmp_eq_iff s t).1 h1
    subst e
    rcases h2 : strCmp s u with _ | _ | _ <;> rw [h2] at hyz <;>
      simp only [leOfCmp] at hyz
    · rfl
    · simp only [leOfCmp]
      exact hrec hxy hyz
    · cases hyz
  · cases hxy

theorem tripleLe_trans (x y z : Str × Str × Str) :
    tripleLe x y → tripleLe y z → tripleLe x z := by
  obtain ⟨x1, x2, x3⟩ := x
  obtain ⟨y1, y2, y3⟩ := y
  obtain ⟨z1, z2, z3⟩ := z
  simp only [tripleLe]
  intro hxy hyz
  exact leOfCmp_trans x1 y1 z1 _ _ _
    (fun a b => leOfCmp_trans x2 y2 z2 _ _ _
      (fun a' b' => leOfCmp_trans x3 y3 z3 _ _ _ (fun _ _ => rfl) a' b') a b)
    hxy hyz

/-! ### Lemmas: the snapshot dictionary -/

theorem lookupD_nil (k : LocationKey) : lookupD [] k = none := rfl

theorem lookupD_cons (kv : LocationKey × WeatherRecord) (d : Dict)
    (k : LocationKey) :
    lookupD (kv :: d) k = if kv.1 = k then some kv.2 else lookupD d k := by
  by_cases h : kv.1 = k
  · simp [lookupD, List.find?_cons_of_pos, h]
  · simp [lookupD, List.find?_cons_of_neg, h]

theorem lookupD_isSome_iff (d : Dict) (k : LocationKey) :
    (lookupD d k).isSome ↔ k ∈ dictKeys d := by
  induction d with
  | nil => simp [lookupD_nil, dictKeys]
  | cons kv d ih =>
      rw [lookupD_cons]
      by_cases h : kv.1 = k
      · simp [h, dictKeys]
      · simp only [if_neg h, dictKeys, List.map_cons, List.mem_cons, ih]
        constructor
        · exact fun hk => .inr hk
        · rintro (hk | hk)
          · exact absurd hk.symm h
          · exact hk

theorem lookupD_eq_none_iff (d : Dict) (k : LocationKey) :
    lookupD d k = none ↔ k ∉ dictKeys d := by
  rw [← lookupD_isSome_iff]
  cases lookupD d k <;> simp

theorem dictKeys_dictInsert_of_isSome (d : Dict) (k : LocationKey)
    (v : WeatherRecord) (h : (lookupD d k).isSome) :
    dictKeys (dictInsert d k v) = dictKeys d := by
  simp only [dictInsert, if_pos h, dictKeys, List.map_map]
  refine List.map_congr_left (fun kv _ => ?_)
  by_cases hk : kv.1 = k
  · simp [hk]
  · simp [hk]

theorem dictKeys_dictInsert_of_none (d : Dict) (k : LocationKey)
    (v : WeatherRecord) (h : lookupD d k = none) :
    dictKeys (dictInsert d k v) = dictKeys d ++ [k] := by
  have h' : ¬(lookupD d k).isSome := by simp [h]
  simp [dictInsert, if_neg h', dictKeys]

theorem nodup_dictKeys_dictInsert (d : Dict) (k : LocationKey)
    (v : WeatherRecord) (h : (dictKeys d).Nodup) :
    (dictKeys (dictInsert d k v)).Nodup := by
  cases hs : lookupD d k with
  | some w =>
      rw [dictKeys_dictInsert_of_isSome d k v (by simp [hs])]
      exact h
  | none =>
      rw [dictKeys_dictInsert_of_none d k v hs]
      have hk : k ∉ dictKeys d := (lookupD_eq_none_iff d k).1 hs
      simp [List.nodup_append, h, hk]

theorem dictWF_dictInsert (d : Dict) (k : LocationKey) (v : WeatherRecord)
    (hwf : DictWF d) (hv : recordKey v = k) : DictWF (dictInsert d k v) := by
  intro kv hkv
  simp only [dictInsert] at hkv
  split at hkv
  · rcases List.mem_map.1 hkv with ⟨kv', hkv', heq⟩
    by_cases hk : kv'.1 = k
    · rw [if_pos hk] at heq
      rw [← heq]
      exact hv
    · rw [if_neg hk] at heq
      rw [← heq]
      exact hwf kv' hkv'
  · rcases List.mem_append.1 hkv with hkv | hkv
    · exact hwf kv hkv
    · rcases List.mem_singleton.1 hkv with rfl
      exact hv

theorem lookupD_map_replace (d : Dict) (k : LocationKey) (v : WeatherRecord) :
    lookupD (d.map (fun kv => if kv.1 = k then (k, v) else kv)) k =
      (lookupD d k).map (fun _ => v) := by
  induction d with
  | nil => rfl
  | cons kv d ih =>
      by_cases hk : kv.1 = k
      · simp [List.map_cons, if_pos hk, lookupD_cons]
      · simp only [List.map_cons, if_neg hk, lookupD_cons, if_neg hk, ih]

theorem lookupD_map_replace_ne (d : Dict) (k k' : LocationKey)
    (v : WeatherRecord) (h : k' ≠ k) :
    lookupD (d.map (fun kv => if kv.1 = k then (k, v) else kv)) k' =
      lookupD d k' := by
  induction d with
  | nil => rfl
  | cons kv d ih =>
      by_cases hk : kv.1 = k
      · have h1 : (k : LocationKey) ≠ k' := fun he => h he.symm
        simp only [List.map_cons, if_pos hk, lookupD_cons, if_neg h1, ih]
        rw [if_neg (fun he : kv.1 = k' => h (hk ▸ he ▸ rfl))]
      · simp only [List.map_cons, if_neg hk, lookupD_cons, ih]

theorem lookupD_dictInsert_self (d : Dict) (k : LocationKey)
    (v : WeatherRecord) : lookupD (dictInsert d k v) k = some v := by
  simp only [dictInsert]
  split
  · next h =>
      rw [lookupD_map_replace]
      rcases Option.isSome_iff_exists.1 h with ⟨w, hw⟩
      rw [hw]
      rfl
  · next h =>
      have hn : lookupD d k = none := by
        cases hl : lookupD d k
        · rfl
        · exact absurd (by simp [hl]) h
      simp only [lookupD, List.find?_append]
      have : List.find? (fun kv => kv.1 = k) d = none := by
        by_contra hc
        rcases Option.ne_none_iff_exists'.1 hc with ⟨kv, hkv⟩
        simp [lookupD, hkv] at hn
      rw [this]
      simp [List.find?]

theorem lookupD_dictInsert_ne (d : Dict) (k k' : LocationKey)
    (v : WeatherRecord) (h : k' ≠ k) :
    lookupD (dictInsert d k v) k' = lookupD d k' := by
  simp only [dictInsert]
  split
  · exact lookupD_map_replace_ne d k k' v h
  · simp only [lookupD, List.find?_append]
    have : List.find? (fun kv => kv.1 = k') [(k, v)] = none := by
      have hne : ¬(k = k') := fun he => h he.symm
      simp [List.find?, hne]
    rw [this]
    cases List.find? (fun kv => kv.1 = k') d <;> rfl

theorem lookupD_dictInsert_isSome (d : Dict) (k k' : LocationKey)
    (v : WeatherRecord) (h : (lookupD d k').isSome) :
    (lookupD (dictInsert d k v) k').isSome := by
  by_cases he : k' = k
  · subst he
    rw [lookupD_dictInsert_self]
    rfl
  · rw [lookupD_dictInsert_ne d k k' v he]
    exact h

theorem nodup_dictKeys_mergeDicts (other : List (LocationKey × WeatherRecord)) :
    ∀ d : Dict, (dictKeys d).Nodup → (dictKeys (mergeDicts d other)).Nodup := by
  induction other with
  | nil => intro d h; exact h
  | cons kv rest ih =>
      intro d h
      exact ih (dictInsert d kv.1 kv.2) (nodup_dictKeys_dictInsert d kv.1 kv.2 h)

theorem dictWF_mergeDicts (other : List (LocationKey × WeatherRecord))
    (hother : ∀ kv ∈ other, recordKey kv.2 = kv.1) :
    ∀ d : Dict, DictWF d → DictWF (mergeDicts d other) := by
  induction other with
  | nil => intro d h; exact h
  | cons kv rest ih =>
      intro d h
      exact ih (fun kv' hkv' => hother kv' (List.mem_cons_of_mem kv hkv'))
        (dictInsert d kv.1 kv.2)
        (dictWF_dictInsert d kv.1 kv.2 h (hother kv (List.mem_cons_self kv rest)))

theorem lookupD_mergeDicts_isSome_left (other : List (LocationKey × WeatherRecord))
    (k : LocationKey) :
    ∀ d : Dict, (lookupD d k).isSome →
      (lookupD (mergeDicts d other) k).isSome := by
  induction other with
  | nil => intro d h; exact h
  | cons kv rest ih =>
      intro d h
      exact ih (dictInsert d kv.1 kv.2) (lookupD_dictInsert_isSome d kv.1 k kv.2 h)

theorem lookupD_mergeDicts_isSome (other : List (LocationKey × WeatherRecord))
    (k : LocationKey) :
    ∀ d : Dict, (lookupD other k).isSome →
      (lookupD (mergeDicts d other) k).isSome := by
  induction other with
  | nil => intro d h; simp [lookupD_nil] at h
  | cons kv rest ih =>
      intro d h
      by_cases hk : kv.1 = k
      · subst hk
        exact lookupD_mergeDicts_isSome_left rest kv.1 (dictInsert d kv.1 kv.2)
          (by rw [lookupD_dictInsert_self]; rfl)
      · rw [lookupD_cons, if_neg hk] at h
        exact ih (dictInsert d kv.1 kv.2) h

theorem lookupD_mergeDicts_of_none (other : List (LocationKey × WeatherRecord))
    (k : LocationKey) :
    ∀ d : Dict, lookupD other k = none →
      lookupD (mergeDicts d other) k = lookupD d k := by
  induction other with
  | nil => intro d _; rfl
  | cons kv rest ih =>
      intro d h
      rw [lookupD_cons] at h
      by_cases hk : kv.1 = k
      · rw [if_pos hk] at h; cases h
      · rw [if_neg hk] at h
        rw [mergeDicts, List.foldl_cons, ← mergeDicts, ih _ h,
          lookupD_dictInsert_ne d kv.1 k kv.2 (fun he => hk he.symm)]

/-! ### Lemmas: rebuilding the dictionary from the stored list -/

theorem rebuildDict_eq_mergeDicts (l : List WeatherRecord) :
    rebuildDict l = mergeDicts [] (l.map (fun e => (recordKey e, e))) := by
  simp only [rebuildDict, mergeDicts, List.foldl_map]

theorem nodup_dictKeys_rebuildDict (l : List WeatherRecord) :
    (dictKeys (rebuildDict l)).Nodup := by
  rw [rebuildDict_eq_mergeDicts]
  exact nodup_dictKeys_mergeDicts _ [] (by simp [dictKeys])

theorem dictWF_rebuildDict (l : List WeatherRecord) :
    DictWF (rebuildDict l) := by
  rw [rebuildDict_eq_mergeDicts]
  refine dictWF_mergeDicts _ ?_ [] (by intro kv h; cases h)
  intro kv hkv
  rcases List.mem_map.1 hkv with ⟨e, _, rfl⟩
  rfl

theorem dictInsert_of_not_mem (d : Dict) (k : LocationKey) (v : WeatherRecord)
    (h : k ∉ dictKeys d) : dictInsert d k v = d ++ [(k, v)] := by
  have hn : lookupD d k = none := (lookupD_eq_none_iff d k).2 h
  have h' : ¬(lookupD d k).isSome := by simp [hn]
  simp [dictInsert, if_neg h']

theorem foldl_insert_append (l : List WeatherRecord) :
    ∀ acc : Dict, (∀ e ∈ l, recordKey e ∉ dictKeys acc) →
      (l.map recordKey).Nodup →
      l.foldl (fun d e => dictInsert d (recordKey e) e) acc =
        acc ++ l.map (fun e => (recordKey e, e)) := by
  induction l with
  | nil => intro acc _ _; simp
  | cons e rest ih =>
      intro acc hdisj hnd
      rw [List.foldl_cons,
        dictInsert_of_not_mem acc (recordKey e) e
          (hdisj e (List.mem_cons_self e rest))]
      rw [List.map_cons] at hnd
      have hnd' := List.Nodup.of_cons hnd
      have hhead : recordKey e ∉ rest.map recordKey :=
        (List.nodup_cons.1 hnd).1
      rw [ih (acc ++ [(recordKey e, e)]) ?_ hnd']
      · simp
      · intro e' he'
        simp only [dictKeys, List.map_append, List.mem_append]
        rintro (hin | hin)
        · exact hdisj e' (List.mem_cons_of_mem e he') hin
        · simp only [List.map_cons, List.map_nil, List.mem_singleton] at hin
          exact hhead (hin ▸ List.mem_map_of_mem recordKey he')

/-- With pairwise-distinct keys, the per-cycle rebuild keeps every stored
record, in order, keyed by its own lower-cased display fields. -/
theorem rebuildDict_eq_map (l : List WeatherRecord)
    (h : (l.map recordKey).Nodup) :
    rebuildDict l = l.map (fun e => (recordKey e, e)) := by
  have := foldl_insert_append l [] (by intro e _ hc; cases hc) h
  simpa [rebuildDict] using this

theorem lookupD_map_self (l : List WeatherRecord) (e : WeatherRecord)
    (hmem : e ∈ l) (h : (l.map recordKey).Nodup) :
    lookupD (l.map (fun x => (recordKey x, x))) (recordKey e) = some e := by
  induction l with
  | nil => cases hmem
  | cons x rest ih =>
      rw [List.map_cons] at h ⊢
      rcases List.mem_cons.1 hmem with rfl | hmem'
      · rw [lookupD_cons, if_pos rfl]
      · rw [lookupD_cons]
        have hx : recordKey x ≠ recordKey e := by
          intro he
          exact (List.nodup_cons.1 h).1 (he ▸ List.mem_map_of_mem recordKey hmem')
        rw [if_neg hx]
        exact ih hmem' (List.Nodup.of_cons h)

theorem rebuildDict_lookup (l : List WeatherRecord) (e : WeatherRecord)
    (hmem : e ∈ l) (h : (l.map recordKey).Nodup) :
    lookupD (rebuildDict l) (recordKey e) = some e := by
  rw [rebuildDict_eq_map l h]
  exact lookupD_map_self l e hmem h

/-! ### Lemmas: values of a well-formed dictionary -/

theorem map_recordKey_dictValues (d : Dict) (hwf : DictWF d) :
    (dictValues d).map recordKey = dictKeys d := by
  simp only [dictValues, dictKeys, List.map_map]
  exact List.map_congr_left (fun kv hkv => hwf kv hkv)

theorem nodup_recordKey_dictValues (d : Dict) (hwf : DictWF d)
    (h : (dictKeys d).Nodup) : ((dictValues d).map recordKey).Nodup := by
  rw [map_recordKey_dictValues d hwf]
  exact h

theorem countP_dictValues (d : Dict) (k : LocationKey) (hwf : DictWF d) :
    (dictValues d).countP (fun e => recordKey e = k) =
      (dictKeys d).countP (fun k' => k' = k) := by
  simp only [dictValues, dictKeys, List.countP_map]
  exact List.countP_congr (fun kv hkv => by simp [Function.comp, hwf kv hkv])

theorem countP_eq_one_of_nodup_mem (ks : List LocationKey) (k : LocationKey)
    (h : ks.Nodup) (hmem : k ∈ ks) :
    ks.countP (fun k' => k' = k) = 1 := by
  induction ks with
  | nil => cases hmem
  | cons x rest ih =>
      rcases List.mem_cons.1 hmem with rfl | hmem'
      · rw [List.countP_cons_of_pos _ _ (by simp)]
        have hx : k ∉ rest := (List.nodup_cons.1 h).1
        have : rest.countP (fun k' => k' = k) = 0 := by
          rw [List.countP_eq_zero]
          intro a ha
          simp only [decide_eq_true_eq]
          intro he
          exact hx (he ▸ ha)
        rw [this]
      · have hx : ¬(x = k) := by
          intro he
          exact (List.nodup_cons.1 h).1 (he ▸ hmem')
        rw [List.countP_cons_of_neg _ _ (by simpa using hx)]
        exact ih (List.Nodup.of_cons h) hmem'

/-! ### Lemmas: one refresh-loop iteration -/

theorem processLocation_merged_key (env : Env) (s : LocationSpec)
    (k : LocationKey) (r : WeatherRecord)
    (h : (processLocation env s).1 = .merged k r) : k = specKeyOf s := by
  unfold processLocation at h
  split at h
  · cases h
  · cases h
  · split at h
    · cases h
    · simp only at h
      injection h with h1 h2
      subst h1
      rfl

theorem processLocation_merged (env : Env) (s : LocationSpec)
    (k : LocationKey) (r : WeatherRecord) (hascii : asciiSpec s = true)
    (h : (processLocation env s).1 = .merged k r) :
    k = specKeyOf s ∧ recordKey r = k := by
  simp only [asciiSpec, Bool.and_eq_true] at hascii
  unfold processLocation at h
  split at h
  · cases h
  · cases h
  · split at h
    · cases h
    · simp only at h
      injection h with h1 h2
      subst h1
      subst h2
      exact ⟨rfl, recordKey_buildRecord env s.city s.state s.country s.tz
        _ _ _ hascii.1.1 hascii.1.2 hascii.2⟩

theorem processLocation_not_raised (env : Env) (s : LocationSpec)
    (hf : fetch_weather_data (env.fetch s.city s.state s.country) ≠ .exn) :
    (processLocation env s).1 ≠ .raised := by
  unfold processLocation
  split
  · next heq => exact absurd heq hf
  · simp
  · split
    · simp
    · simp

theorem processLocation_skip_of_fetch_none (env : Env) (s : LocationSpec)
    (hf : fetch_weather_data (env.fetch s.city s.state s.country) = .ret none) :
    processLocation env s = (.skip, [.fetchCall s.city s.state s.country]) := by
  simp [processLocation, hf]

theorem processLocation_skip_of_geo_none (env : Env) (s : LocationSpec)
    (obs : Observation)
    (hf : fetch_weather_data (env.fetch s.city s.state s.country) =
      .ret (some obs))
    (hg : (retry_geocode (env.geo (locQuery s.city s.state s.country))
      (locQuery s.city s.state s.country) 3 5).1 = none) :
    (processLocation env s).1 = .skip := by
  rcases hgp : retry_geocode (env.geo (locQuery s.city s.state s.country))
      (locQuery s.city s.state s.country) 3 5 with ⟨go, gev⟩
  rw [hgp] at hg
  simp at hg
  subst hg
  simp [processLocation, hf, hgp]

theorem processLocation_merged_of (env : Env) (s : LocationSpec)
    (obs : Observation) (la lo : Coord)
    (hf : fetch_weather_data (env.fetch s.city s.state s.country) =
      .ret (some obs))
    (hg : (retry_geocode (env.geo (locQuery s.city s.state s.country))
      (locQuery s.city s.state s.country) 3 5).1 = some (la, lo)) :
    (processLocation env s).1 =
      .merged (specKeyOf s)
        (buildRecord env s.city s.state s.country s.tz obs la lo) := by
  rcases hgp : retry_geocode (env.geo (locQuery s.city s.state s.country))
      (locQuery s.city s.state s.country) 3 5 with ⟨go, gev⟩
  rw [hgp] at hg
  simp at hg
  subst hg
  simp [processLocation, hf, hgp, specKeyOf]

theorem processLocation_events_head (env : Env) (s : LocationSpec) :
    ∃ t, (processLocation env s).2 =
      .fetchCall s.city s.state s.country :: t := by
  unfold processLocation
  split
  · exact ⟨[], rfl⟩
  · exact ⟨[], rfl⟩
  · split
    · exact ⟨_, rfl⟩
    · exact ⟨_, rfl⟩

theorem retryGeocodeGo_events (oracle : Nat → GeoAttempt) (q : Str)
    (delay : Nat) : ∀ (fuel attempt : Nat),
    ∀ e ∈ (retryGeocodeGo oracle q delay attempt fuel).2,
      isGeoCall e || isGeoLog e || isGeoSleep e := by
  intro fuel
  induction fuel with
  | zero => intro attempt e he; cases he
  | succ n ih =>
      intro attempt e he
      unfold retryGeocodeGo at he
      rcases ho : oracle attempt with _ | _ | ⟨la, lo⟩ <;> rw [ho] at he
      · simp only [List.mem_cons] at he
        rcases he with rfl | rfl | rfl | he
        · rfl
        · rfl
        · rfl
        · exact ih (attempt + 1) e he
      · simp only [List.mem_cons] at he
        rcases he with rfl | he
        · rfl
        · exact ih (attempt + 1) e he
      · simp only [List.mem_cons, List.not_mem_nil, or_false] at he
        subst he
        rfl

theorem retry_geocode_events (oracle : Nat → GeoAttempt) (q : Str)
    (retries delay : Nat) :
    ∀ e ∈ (retry_geocode oracle q retries delay).2,
      isGeoCall e || isGeoLog e || isGeoSleep e :=
  fun e he => retryGeocodeGo_events oracle q delay retries 0 e he

theorem processLocation_event_kinds (env : Env) (s : LocationSpec) :
    ∀ e ∈ (processLocation env s).2,
      isFetchCall e || isGeoCall e || isGeoLog e || isGeoSleep e := by
  intro e he
  unfold processLocation at he
  split at he
  · rcases List.mem_singleton.1 he with rfl
    rfl
  · rcases List.mem_singleton.1 he with rfl
    rfl
  · split at he
    · next gev heq =>
        rcases List.mem_cons.1 he with rfl | he'
        · rfl
        · have h2 := retry_geocode_events
            (env.geo (locQuery s.city s.state s.country))
            (locQuery s.city s.state s.country) 3 5 e (by rw [heq]; exact he')
          rcases e <;> simp_all [isGeoCall, isGeoLog, isGeoSleep, isFetchCall]
    · next la lo gev heq =>
        rcases List.mem_cons.1 he with rfl | he'
        · rfl
        · have h2 := retry_geocode_events
            (env.geo (locQuery s.city s.state s.country))
            (locQuery s.city s.state s.country) 3 5 e (by rw [heq]; exact he')
          rcases e <;> simp_all [isGeoCall, isGeoLog, isGeoSleep, isFetchCall]

/-! ### Lemmas: the refresh loop -/

theorem refreshLoop_some (env : Env) (l : List LocationSpec)
    (h : ∀ s ∈ l, (processLocation env s).1 ≠ .raised) :
    ∀ acc : Dict, ((refreshLoop env l acc).1).isSome := by
  induction l with
  | nil => intro acc; rfl
  | cons s rest ih =>
      intro acc
      have hs := h s (List.mem_cons_self s rest)
      have hrest : ∀ s' ∈ rest, (processLocation env s').1 ≠ .raised :=
        fun s' hs' => h s' (List.mem_cons_of_mem s hs')
      unfold refreshLoop
      rcases hp : processLocation env s with ⟨sr, ev⟩
      rcases sr with _ | _ | ⟨k, r⟩
      · exact absurd (by rw [hp]) hs
      · exact ih hrest acc
      · exact ih hrest (dictInsert acc k r)

theorem refreshLoop_nodup_wf (env : Env) (l : List LocationSpec)
    (hascii : ∀ s ∈ l, asciiSpec s = true) :
    ∀ (acc d : Dict) (ev : List Event),
    refreshLoop env l acc = (some d, ev) →
    (dictKeys acc).Nodup → DictWF acc →
    (dictKeys d).Nodup ∧ DictWF d := by
  induction l with
  | nil =>
      intro acc d ev h hnd hwf
      injection h with h1 _
      injection h1 with h1
      subst h1
      exact ⟨hnd, hwf⟩
  | cons s rest ih =>
      intro acc d ev h hnd hwf
      have hrest : ∀ s' ∈ rest, asciiSpec s' = true :=
        fun s' hs' => hascii s' (List.mem_cons_of_mem s hs')
      unfold refreshLoop at h
      rcases hp : processLocation env s with ⟨sr, pev⟩
      rw [hp] at h
      rcases sr with _ | _ | ⟨k, r⟩
      · injection h with h1 _
        cases h1
      · simp only at h
        injection h with h1 h2
        rcases hr : refreshLoop env rest acc with ⟨o, ev'⟩
        rw [hr] at h1
        exact ih hrest acc d ev' (by rw [hr]; rw [show o = some d from h1])
          hnd hwf
      · simp only at h
        injection h with h1 h2
        rcases hr : refreshLoop env rest (dictInsert acc k r) with ⟨o, ev'⟩
        rw [hr] at h1
        have hk := processLocation_merged env s k r
          (hascii s (List.mem_cons_self s rest)) (by rw [hp])
        exact ih hrest (dictInsert acc k r) d ev'
          (by rw [hr]; rw [show o = some d from h1])
          (nodup_dictKeys_dictInsert acc k r hnd)
          (dictWF_dictInsert acc k r hwf hk.2)

theorem refreshLoop_lookup_isSome_mono (env : Env) (l : List LocationSpec)
    (k : LocationKey) :
    ∀ (acc d : Dict) (ev : List Event),
    refreshLoop env l acc = (some d, ev) →
    (lookupD acc k).isSome → (lookupD d k).isSome := by
  induction l with
  | nil =>
      intro acc d ev h hsome
      injection h with h1 _
      injection h1 with h1
      subst h1
      exact hsome
  | cons s rest ih =>
      intro acc d ev h hsome
      unfold refreshLoop at h
      rcases hp : processLocation env s with ⟨sr, pev⟩
      rw [hp] at h
      rcases sr with _ | _ | ⟨k', r⟩
      · injection h with h1 _
        cases h1
      · simp only at h
        injection h with h1 h2
        rcases hr : refreshLoop env rest acc with ⟨o, ev'⟩
        rw [hr] at h1
        exact ih acc d ev' (by rw [hr]; rw [show o = some d from h1]) hsome
      · simp only at h
        injection h with h1 h2
        rcases hr : refreshLoop env rest (dictInsert acc k' r) with ⟨o, ev'⟩
        rw [hr] at h1
        exact ih (dictInsert acc k' r) d ev' (by rw [hr]; rw [show o = some d from h1])
          (lookupD_dictInsert_isSome acc k' k r hsome)

theorem refreshLoop_lookup_untouched (env : Env) (l : List LocationSpec)
    (k : LocationKey)
    (hnm : ∀ s ∈ l, ∀ r : WeatherRecord,
      (processLocation env s).1 ≠ .merged k r) :
    ∀ (acc d : Dict) (ev : List Event),
    refreshLoop env l acc = (some d, ev) →
    lookupD d k = lookupD acc k := by
  induction l with
  | nil =>
      intro acc d ev h
      injection h with h1 _
      injection h1 with h1
      subst h1
      rfl
  | cons s rest ih =>
      intro acc d ev h
      have hrest : ∀ s' ∈ rest, ∀ r : WeatherRecord,
          (processLocation env s').1 ≠ .merged k r :=
        fun s' hs' => hnm s' (List.mem_cons_of_mem s hs')
      unfold refreshLoop at h
      rcases hp : processLocation env s with ⟨sr, pev⟩
      rw [hp] at h
      rcases sr with _ | _ | ⟨k', r⟩
      · injection h with h1 _
        cases h1
      · simp only at h
        injection h with h1 h2
        rcases hr : refreshLoop env rest acc with ⟨o, ev'⟩
        rw [hr] at h1
        exact ih hrest acc d ev' (by rw [hr]; rw [show o = some d from h1])
      · simp only at h
        injection h with h1 h2
        rcases hr : refreshLoop env rest (dictInsert acc k' r) with ⟨o, ev'⟩
        rw [hr] at h1
        have hne : k ≠ k' := by
          intro he
          exact hnm s (List.mem_cons_self s rest) r (by rw [hp, he])
        rw [ih hrest (dictInsert acc k' r) d ev' (by rw [hr]; rw [show o = some d from h1])]
        exact lookupD_dictInsert_ne acc k' k r hne

theorem refreshLoop_inserted (env : Env) (l : List LocationSpec)
    (s0 : LocationSpec) (hmem : s0 ∈ l) (k : LocationKey) (r : WeatherRecord)
    (hmerged : (processLocation env s0).1 = .merged k r) :
    ∀ (acc d : Dict) (ev : List Event),
    refreshLoop env l acc = (some d, ev) →
    (lookupD d k).isSome := by
  induction l with
  | nil => cases hmem
  | cons s rest ih =>
      intro acc d ev h
      unfold refreshLoop at h
      rcases hp : processLocation env s with ⟨sr, pev⟩
      rw [hp] at h
      rcases sr with _ | _ | ⟨k', r'⟩
      · injection h with h1 _
        cases h1
      · simp only at h
        injection h with h1 h2
        rcases hr : refreshLoop env rest acc with ⟨o, ev'⟩
        rw [hr] at h1
        rcases List.mem_cons.1 hmem with rfl | hmem'
        · rw [hp] at hmerged
          cases hmerged
        · exact ih hmem' acc d ev' (by rw [hr]; rw [show o = some d from h1])
  
      · simp only at h
        injection h with h1 h2
        rcases hr : refreshLoop env rest (dictInsert acc k' r') with ⟨o, ev'⟩
        rw [hr] at h1
        rcases List.mem_cons.1 hmem with rfl | hmem'
        · rw [hp] at hmerged
          injection hmerged with hk1 hk2
          subst hk1
          exact refreshLoop_lookup_isSome_mono env rest k'
            (dictInsert acc k' r') d ev' (by rw [hr]; rw [show o = some d from h1])
            (by rw [lookupD_dictInsert_self]; rfl)
        · exact ih hmem' (dictInsert acc k' r') d ev' (by rw [hr]; rw [show o = some d from h1])

theorem refreshLoop_events_fetch (env : Env) (l : List LocationSpec)
    (h : ∀ s ∈ l, (processLocation env s).1 ≠ .raised) :
    ∀ acc : Dict, ∀ s ∈ l,
      .fetchCall s.city s.state s.country ∈ (refreshLoop env l acc).2 := by
  induction l with
  | nil => intro acc s hs; cases hs
  | cons s rest ih =>
      intro acc s' hs'
      have hs := h s (List.mem_cons_self s rest)
      have hrest : ∀ x ∈ rest, (processLocation env x).1 ≠ .raised :=
        fun x hx => h x (List.mem_cons_of_mem s hx)
      unfold refreshLoop
      rcases hp : processLocation env s with ⟨sr, pev⟩
      have hhead : ∃ t, pev = .fetchCall s.city s.state s.country :: t := by
        have := processLocation_events_head env s
        rw [hp] at this
        exact this
      rcases sr with _ | _ | ⟨k, r⟩
      · exact absurd (by rw [hp]) hs
      · rcases List.mem_cons.1 hs' with rfl | hmem'
        · rcases hhead with ⟨t, rfl⟩
          simp
        · simp only [List.mem_append]
          exact .inr (ih hrest acc s' hmem')
      · rcases List.mem_cons.1 hs' with rfl | hmem'
        · rcases hhead with ⟨t, rfl⟩
          simp
        · simp only [List.mem_append]
          exact .inr (ih hrest (dictInsert acc k r) s' hmem')

theorem refreshLoop_event_kinds (env : Env) (l : List LocationSpec) :
    ∀ acc : Dict, ∀ e ∈ (refreshLoop env l acc).2,
      isFetchCall e || isGeoCall e || isGeoLog e || isGeoSleep e := by
  induction l with
  | nil => intro acc e he; cases he
  | cons s rest ih =>
      intro acc e he
      unfold refreshLoop at he
      rcases hp : processLocation env s with ⟨sr, pev⟩
      rw [hp] at he
      have hkinds : ∀ e' ∈ pev,
          isFetchCall e' || isGeoCall e' || isGeoLog e' || isGeoSleep e' := by
        intro e' he'
        exact processLocation_event_kinds env s e' (by rw [hp]; exact he')
      rcases sr with _ | _ | ⟨k, r⟩
      · exact hkinds e he
      · rcases List.mem_append.1 he with he' | he'
        · exact hkinds e he'
        · exact ih acc e he'
      · rcases List.mem_append.1 he with he' | he'
        · exact hkinds e he'
        · exact ih (dictInsert acc k r) e he'

/-! ### Lemmas: the user-submission step -/

theorem userStep_empty (env : Env) (loc : Str) (wdd : Dict)
    (wd1 : List WeatherRecord) (h : pyStrip loc = []) :
    userStep env loc wdd wd1 = (.doneU wdd wd1, []) := by
  simp [userStep, h]

theorem userStep_format_failure (env : Env) (loc : Str) (wdd : Dict)
    (wd1 : List WeatherRecord) (h0 : pyStrip loc ≠ [])
    (h3 : (splitComma (pyStrip loc)).length ≠ 3) :
    userStep env loc wdd wd1 =
      (.doneU wdd wd1, [.formatFailureLog (pyStrip loc)]) := by
  unfold userStep
  rw [if_neg h0]
  rcases hs : splitComma (pyStrip loc) with _ | ⟨a, _ | ⟨b, _ | ⟨c, _ | ⟨d, t⟩⟩⟩⟩
  · rfl
  · rfl
  · rfl
  · rw [hs] at h3
    simp at h3
  · rfl

theorem userStep_existing_key (env : Env) (loc : Str) (wdd : Dict)
    (wd1 : List WeatherRecord) (c0 s0 k0 : Str) (h0 : pyStrip loc ≠ [])
    (hs : splitComma (pyStrip loc) = [c0, s0, k0])
    (hk : (lookupD wdd
      (specKey (pyStrip c0) (pyStrip s0) (pyStrip k0))).isSome) :
    userStep env loc wdd wd1 = (.doneU wdd wd1, []) := by
  simp [userStep, h0, hs, hk]

theorem userStep_insert (env : Env) (loc : Str) (wdd : Dict)
    (wd1 : List WeatherRecord) (c0 s0 k0 : Str) (obs : Observation)
    (la lo : Coord) (gev : List Event) (h0 : pyStrip loc ≠ [])
    (hs : splitComma (pyStrip loc) = [c0, s0, k0])
    (hk : ¬(lookupD wdd
      (specKey (pyStrip c0) (pyStrip s0) (pyStrip k0))).isSome)
    (hf : fetch_weather_data
      (env.fetch (pyStrip c0) (pyStrip s0) (pyStrip k0)) = .ret (some obs))
    (hg : retry_geocode
      (env.geo (locQuery (pyStrip c0) (pyStrip s0) (pyStrip k0)))
      (locQuery (pyStrip c0) (pyStrip s0) (pyStrip k0)) 3 5 =
        (some (la, lo), gev)) :
    userStep env loc wdd wd1 =
      (.doneU
        (dictInsert wdd (specKey (pyStrip c0) (pyStrip s0) (pyStrip k0))
          (userRecord env (pyStrip c0) (pyStrip s0) (pyStrip k0) obs la lo))
        (dictValues
          (dictInsert wdd (specKey (pyStrip c0) (pyStrip s0) (pyStrip k0))
            (userRecord env (pyStrip c0) (pyStrip s0) (pyStrip k0) obs la lo))),
       .fetchCall (pyStrip c0) (pyStrip s0) (pyStrip k0) ::
         (gev ++ [.tzCall lo la])) := by
  simp [userStep, h0, hs, hk, hf, hg]

theorem recordKey_userRecord (env : Env) (city state country : Str)
    (obs : Observation) (la lo : Coord) (hc : asciiStr city = true)
    (hs : asciiStr state = true) (hk : asciiStr country = true) :
    recordKey (userRecord env city state country obs la lo) =
      specKey city state country :=
  recordKey_buildRecord env city state country _ obs la lo hc hs hk

theorem mem_pyStrip (s : Str) (c : Nat) (hc : c ∈ pyStrip s) : c ∈ s := by
  simp only [pyStrip, List.mem_reverse] at hc
  exact (List.dropWhile_sublist isSpace).subset
    (List.mem_reverse.1 ((List.dropWhile_sublist isSpace).subset hc))

theorem asciiStr_of_mem (s t : Str) (hsub : ∀ c ∈ t, c ∈ s)
    (h : asciiStr s = true) : asciiStr t = true := by
  simp only [asciiStr, List.all_eq_true, decide_eq_true_eq] at h ⊢
  exact fun c hc => h c (hsub c hc)

theorem mem_of_mem_splitCommaGo (s : Str) : ∀ (acc f : Str),
    f ∈ splitCommaGo acc s → ∀ c ∈ f, c ∈ acc ∨ c ∈ s := by
  induction s with
  | nil =>
      intro acc f hf c hc
      simp only [splitCommaGo, List.mem_singleton] at hf
      subst hf
      exact .inl (List.mem_reverse.1 hc)
  | cons a rest ih =>
      intro acc f hf c hc
      simp only [splitCommaGo] at hf
      by_cases ha : (a == 44) = true
      · rw [if_pos ha] at hf
        rcases List.mem_cons.1 hf with rfl | hf'
        · exact .inl (List.mem_reverse.1 hc)
        · rcases ih [] f hf' c hc with h | h
          · cases h
          · exact .inr (List.mem_cons_of_mem a h)
      · rw [if_neg ha] at hf
        rcases ih (a :: acc) f hf c hc with h | h
        · rcases List.mem_cons.1 h with rfl | h'
          · exact .inr (List.mem_cons_self c rest)
          · exact .inl h'
        · exact .inr (List.mem_cons_of_mem a h)

theorem asciiStr_splitComma_strip (loc f : Str)
    (hascii : asciiStr loc = true) (hf : f ∈ splitComma (pyStrip loc)) :
    asciiStr (pyStrip f) = true := by
  refine asciiStr_of_mem loc (pyStrip f) ?_ hascii
  intro c hc
  have h1 : c ∈ f := mem_pyStrip f c hc
  have h2 : c ∈ pyStrip loc := by
    rcases mem_of_mem_splitCommaGo (pyStrip loc) [] f hf c h1 with h | h
    · cases h
    · exact h
  exact mem_pyStrip loc c h2

theorem userStep_doneU (env : Env) (loc : Str) (wdd : Dict)
    (wd1 : List WeatherRecord) (wdd2 : Dict) (wd2 : List WeatherRecord)
    (ev : List Event) (hascii : asciiStr loc = true)
    (h : userStep env loc wdd wd1 = (.doneU wdd2 wd2, ev)) :
    wd2 = wd1 ∨
    (∃ (k : LocationKey) (entry : WeatherRecord), recordKey entry = k ∧
      wdd2 = dictInsert wdd k entry ∧ wd2 = dictValues wdd2) := by
  by_cases h0 : pyStrip loc = []
  · rw [userStep_empty env loc wdd wd1 h0] at h
    injection h with h1 _
    injection h1 with _ h2
    exact .inl h2.symm
  · rcases hsp : splitComma (pyStrip loc)
      with _ | ⟨c0, _ | ⟨s0, _ | ⟨k0, _ | ⟨d0, t4⟩⟩⟩⟩
    · rw [userStep_format_failure env loc wdd wd1 h0
        (by rw [hsp]; simp)] at h
      injection h with h1 _
      injection h1 with _ h2
      exact .inl h2.symm
    · rw [userStep_format_failure env loc wdd wd1 h0
        (by rw [hsp]; simp)] at h
      injection h with h1 _
      injection h1 with _ h2
      exact .inl h2.symm
    · rw [userStep_format_failure env loc wdd wd1 h0
        (by rw [hsp]; simp)] at h
      injection h with h1 _
      injection h1 with _ h2
      exact .inl h2.symm
    · have hac1 := asciiStr_splitComma_strip loc c0 hascii
        (by rw [hsp]; simp)
      have hac2 := asciiStr_splitComma_strip loc s0 hascii
        (by rw [hsp]; simp)
      have hac3 := asciiStr_splitComma_strip loc k0 hascii
        (by rw [hsp]; simp)
      rw [show userStep env loc wdd wd1 =
          (if (lookupD wdd (specKey (pyStrip c0) (pyStrip s0)
              (pyStrip k0))).isSome then
            (.doneU wdd wd1, [])
          else
            match fetch_weather_data
                (env.fetch (pyStrip c0) (pyStrip s0) (pyStrip k0)) with
            | .exn =>
                (.raisedU,
                 [.fetchCall (pyStrip c0) (pyStrip s0) (pyStrip k0)])
            | .ret none =>
                (.doneU wdd wd1,
                 [.fetchCall (pyStrip c0) (pyStrip s0) (pyStrip k0)])
            | .ret (some obs) =>
                match retry_geocode
                    (env.geo (locQuery (pyStrip c0) (pyStrip s0)
                      (pyStrip k0)))
                    (locQuery (pyStrip c0) (pyStrip s0) (pyStrip k0))
                    3 5 with
                | (none, gev) =>
                    (.doneU wdd wd1,
                     .fetchCall (pyStrip c0) (pyStrip s0) (pyStrip k0) ::
                       gev)
                | (some (la, lo), gev) =>
                    (.doneU
                      (dictInsert wdd
                        (specKey (pyStrip c0) (pyStrip s0) (pyStrip k0))
                        (userRecord env (pyStrip c0) (pyStrip s0)
                          (pyStrip k0) obs la lo))
                      (dictValues
                        (dictInsert wdd
                          (specKey (pyStrip c0) (pyStrip s0) (pyStrip k0))
                          (userRecord env (pyStrip c0) (pyStrip s0)
                            (pyStrip k0) obs la lo))),
                     .fetchCall (pyStrip c0) (pyStrip s0) (pyStrip k0) ::
                       (gev ++ [.tzCall lo la]))) from by
        simp [userStep, h0, hsp]] at h
      split at h
      · injection h with h1 _
        injection h1 with _ h2
        exact .inl h2.symm
      · split at h
        · injection h with h1 _
          cases h1
        · injection h with h1 _
          injection h1 with _ h2
          exact .inl h2.symm
        · split at h
          · injection h with h1 _
            injection h1 with _ h2
            exact .inl h2.symm
          · injection h with h1 _
            injection h1 with hd he
            refine .inr ⟨_, _, ?_, hd.symm, ?_⟩
            · exact recordKey_userRecord _ _ _ _ _ _ _ hac1 hac2 hac3
            · rw [← hd]
              exact he.symm
    · rw [userStep_format_failure env loc wdd wd1 h0
        (by rw [hsp]; simp)] at h
      injection h with h1 _
      injection h1 with _ h2
      exact .inl h2.symm

/-! ### Lemmas: the final sort -/

theorem sortRecords_perm (l : List WeatherRecord) : (sortRecords l).Perm l :=
  List.perm_insertionSort recordLe l

theorem sortRecords_sorted (l : List WeatherRecord) :
    (sortRecords l).Pairwise
      (fun a b => tripleLe (sortKey a) (sortKey b)) := by
  haveI : IsTotal WeatherRecord recordLe :=
    ⟨fun a b => Bool.or_eq_true_iff.1 (tripleLe_total (sortKey a) (sortKey b))⟩
  haveI : IsTrans WeatherRecord recordLe :=
    ⟨fun a b c hab hbc =>
      tripleLe_trans (sortKey a) (sortKey b) (sortKey c) hab hbc⟩
  exact List.sorted_insertionSort recordLe l

theorem sortRecords_nodup_keys (l : List WeatherRecord)
    (h : (l.map recordKey).Nodup) :
    ((sortRecords l).map recordKey).Nodup :=
  ((sortRecords_perm l).map recordKey).nodup_iff.2 h

theorem sortRecords_countP (l : List WeatherRecord)
    (p : WeatherRecord → Bool) :
    (sortRecords l).countP p = l.countP p :=
  (sortRecords_perm l).countP_eq p

/-! ### Lemmas: the whole request handler -/

theorem handler_eq_abort (env : Env) (req : Request)
    (wd0 : List WeatherRecord) (ev : List Event)
    (hr : refreshLoop env locations [] = (none, ev)) :
    get_all_weather_data env req wd0 = ⟨none, wd0, ev⟩ := by
  unfold get_all_weather_data
  rw [hr]

theorem handler_eq_get (env : Env) (req : Request)
    (wd0 : List WeatherRecord) (refreshed : Dict) (ev1 : List Event)
    (hr : refreshLoop env locations [] = (some refreshed, ev1))
    (hm : req.method = .get) :
    get_all_weather_data env req wd0 =
      ⟨some (sortRecords
         (dictValues (mergeDicts (rebuildDict wd0) refreshed))),
       sortRecords (dictValues (mergeDicts (rebuildDict wd0) refreshed)),
       ev1⟩ := by
  unfold get_all_weather_data
  rw [hr, hm]

theorem handler_eq_post_raised (env : Env) (req : Request)
    (wd0 : List WeatherRecord) (refreshed : Dict) (ev1 ev2 : List Event)
    (hr : refreshLoop env locations [] = (some refreshed, ev1))
    (hm : req.method = .post)
    (hu : userStep env req.formLocation
      (mergeDicts (rebuildDict wd0) refreshed)
      (dictValues (mergeDicts (rebuildDict wd0) refreshed)) =
        (.raisedU, ev2)) :
    get_all_weather_data env req wd0 =
      ⟨none, dictValues (mergeDicts (rebuildDict wd0) refreshed),
       ev1 ++ ev2⟩ := by
  unfold get_all_weather_data
  simp only [hr, hm, hu]

theorem handler_eq_post_done (env : Env) (req : Request)
    (wd0 : List WeatherRecord) (refreshed wdd2 : Dict)
    (wd2 : List WeatherRecord) (ev1 ev2 : List Event)
    (hr : refreshLoop env locations [] = (some refreshed, ev1))
    (hm : req.method = .post)
    (hu : userStep env req.formLocation
      (mergeDicts (rebuildDict wd0) refreshed)
      (dictValues (mergeDicts (rebuildDict wd0) refreshed)) =
        (.doneU wdd2 wd2, ev2)) :
    get_all_weather_data env req wd0 =
      ⟨some (sortRecords wd2), sortRecords wd2, ev1 ++ ev2⟩ := by
  unfold get_all_weather_data
  simp only [hr, hm, hu]

theorem merged_dict_nodup (wd0 : List WeatherRecord) (refreshed : Dict)
    (hwfr : DictWF refreshed) :
    (dictKeys (mergeDicts (rebuildDict wd0) refreshed)).Nodup ∧
    DictWF (mergeDicts (rebuildDict wd0) refreshed) ∧
    ((dictValues (mergeDicts (rebuildDict wd0) refreshed)).map
      recordKey).Nodup := by
  have hnd : (dictKeys (mergeDicts (rebuildDict wd0) refreshed)).Nodup :=
    nodup_dictKeys_mergeDicts refreshed _ (nodup_dictKeys_rebuildDict wd0)
  have hwf : DictWF (mergeDicts (rebuildDict wd0) refreshed) :=
    dictWF_mergeDicts refreshed hwfr _ (dictWF_rebuildDict wd0)
  exact ⟨hnd, hwf, nodup_recordKey_dictValues _ hwf hnd⟩

theorem locations_ascii : ∀ s ∈ locations, asciiSpec s = true := by
  decide

theorem handler_state_of_view (env : Env) (req : Request)
    (wd0 : List WeatherRecord) (v : List WeatherRecord)
    (hascii : req.method = .post → asciiStr req.formLocation = true)
    (h : (get_all_weather_data env req wd0).view = some v) :
    (get_all_weather_data env req wd0).state = v ∧
    (v.map recordKey).Nodup := by
  rcases hr : refreshLoop env locations [] with ⟨o, ev1⟩
  rcases o with _ | refreshed
  · rw [handler_eq_abort env req wd0 ev1 hr] at h
    cases h
  · have hprops : (dictKeys refreshed).Nodup ∧ DictWF refreshed :=
      refreshLoop_nodup_wf env locations locations_ascii [] refreshed ev1 hr
        (by simp [dictKeys]) (by intro kv hkv; cases hkv)
    rcases merged_dict_nodup wd0 refreshed hprops.2 with ⟨hnd, hwf, hvals⟩
    rcases hm : req.method with _ | _
    · rw [handler_eq_get env req wd0 refreshed ev1 hr hm] at h ⊢
      injection h with hv
      exact ⟨hv, hv ▸ sortRecords_nodup_keys _ hvals⟩
    · rcases hu : userStep env req.formLocation
          (mergeDicts (rebuildDict wd0) refreshed)
          (dictValues (mergeDicts (rebuildDict wd0) refreshed)) with ⟨uo, ev2⟩
      rcases uo with _ | ⟨wdd2, wd2⟩
      · rw [handler_eq_post_raised env req wd0 refreshed ev1 ev2 hr hm hu] at h
        cases h
      · rw [handler_eq_post_done env req wd0 refreshed wdd2 wd2 ev1 ev2
          hr hm hu] at h ⊢
        injection h with hv
        refine ⟨hv, hv ▸ ?_⟩
        rcases userStep_doneU env req.formLocation _ _ wdd2 wd2 ev2
            (hascii hm) hu with
          heq | ⟨k, entry, hke, hwdd2, hwd2⟩
        · exact sortRecords_nodup_keys _ (heq ▸ hvals)
        · rw [hwd2, hwdd2]
          exact sortRecords_nodup_keys _
            (nodup_recordKey_dictValues _
              (dictWF_dictInsert _ k entry hwf hke)
              (nodup_dictKeys_dictInsert _ k entry hnd))

/-! ### The claims -/

/-- C3 counterexample: an HTTP-OK response whose body lacks the expected
fields does not yield the "no observation available" return value — the
function raises (`KeyError`) to its caller instead, so the claim that all
four failure modes are reported as the single no-observation outcome is
false at this input. -/
theorem C3_counterexample :
    fetch_weather_data (.response 200 emptyBody) = .exn ∧
    fetch_weather_data (.response 200 emptyBody) ≠ .ret none := by
  decide

/-- C3 (amended): a request timeout, a transport error, and a non-success
status code each make `fetch_weather_data` return the "no observation
available" value (`None`) without raising; but on an HTTP-OK response with
any expected field absent the function raises to its caller instead of
returning the failure value. -/
theorem C3_fetch_failure_modes (status : Nat) (body : JsonBody) :
    fetch_weather_data .timeout = .ret none ∧
    fetch_weather_data .requestError = .ret none ∧
    (status ≠ 200 → fetch_weather_data (.response status body) = .ret none) ∧
    (body.mainTemp = none ∨ body.mainHumidity = none ∨
        body.weather0Description = none ∨ body.coordLat = none ∨
        body.coordLon = none →
      fetch_weather_data (.response 200 body) = .exn) := by
  refine ⟨rfl, rfl, ?_, ?_⟩
  · intro h
    simp [fetch_weather_data, h]
  · intro h
    rcases body with ⟨t, hm, dsc, la, lo⟩
    rcases t with _ | t <;> rcases hm with _ | hm <;> rcases dsc with _ | dsc <;>
      rcases la with _ | la <;> rcases lo with _ | lo <;>
        simp_all [fetch_weather_data]

/-- C3 witness: the amended claim at a 404 response and at an HTTP-OK
response with all fields missing. -/
theorem C3_fetch_failure_modes_witness :
    fetch_weather_data (.response 404 fullBody) = .ret none ∧
    fetch_weather_data (.response 200 emptyBody) = .exn :=
  ⟨(C3_fetch_failure_modes 404 fullBody).2.2.1 (by decide),
   (C3_fetch_failure_modes 404 emptyBody).2.2.2 (.inl rfl)⟩

/-- C2: inserting a record r1 and then a record r2 carrying the same
LocationKey leaves exactly one entry for that key, holding exactly r2 —
last-write-wins, no duplicate entry. -/
theorem C2_merge_last_write_wins (d : Dict) (r1 r2 : WeatherRecord)
    (hnd : (dictKeys d).Nodup) (hk : recordKey r1 = recordKey r2) :
    lookupD (dictInsert (dictInsert d (recordKey r1) r1) (recordKey r2) r2)
      (recordKey r2) = some r2 ∧
    (dictInsert (dictInsert d (recordKey r1) r1) (recordKey r2) r2).countP
      (fun kv => kv.1 = recordKey r2) = 1 := by
  have h2 := lookupD_dictInsert_self (dictInsert d (recordKey r1) r1)
    (recordKey r2) r2
  refine ⟨h2, ?_⟩
  have hnd2 : (dictKeys (dictInsert (dictInsert d (recordKey r1) r1)
      (recordKey r2) r2)).Nodup :=
    nodup_dictKeys_dictInsert _ _ _ (nodup_dictKeys_dictInsert _ _ _ hnd)
  have hmem : recordKey r2 ∈ dictKeys (dictInsert
      (dictInsert d (recordKey r1) r1) (recordKey r2) r2) :=
    (lookupD_isSome_iff _ _).1 (by rw [h2]; rfl)
  have hcount := countP_eq_one_of_nodup_mem _ (recordKey r2) hnd2 hmem
  calc (dictInsert (dictInsert d (recordKey r1) r1) (recordKey r2)
          r2).countP (fun kv => kv.1 = recordKey r2)
      = (dictKeys (dictInsert (dictInsert d (recordKey r1) r1)
          (recordKey r2) r2)).countP (fun k' => k' = recordKey r2) := by
        simp only [dictKeys, List.countP_map]
        rfl
    _ = 1 := hcount

/-- C2 witness: merging two concrete records with the key
(seattle, wa, us) into the empty snapshot. -/
theorem C2_witness :
    lookupD (dictInsert (dictInsert [] (recordKey recA) recA)
      (recordKey recB) recB) (recordKey recB) = some recB ∧
    (dictInsert (dictInsert [] (recordKey recA) recA)
      (recordKey recB) recB).countP (fun kv => kv.1 = recordKey recB) = 1 :=
  C2_merge_last_write_wins [] recA recB (by decide) (by decide)

/-- C9 counterexample: Python casing is Unicode-wide, and lower-casing
does not undo it at ß (U+00DF, code point 223): upper-casing expands ß to
"SS" and word-initial title-casing to "Ss", whose lower-casing "ss" is a
different string from "ß". A record built from a state field "ß" carries
insertion key (…, "ß", …) but lower-cases its display fields to
(…, "ss", …), so the rebuild re-keys it — the claimed round-trip is false
of the program. -/
theorem C9_counterexample :
    pyLower (pyUpper (strLit "ß")) ≠ pyLower (strLit "ß") ∧
    pyLower (pyTitle (strLit "ß")) ≠ pyLower (strLit "ß") ∧
    recordKey (buildRecord envAllOk (strLit "X") (strLit "ß")
      (strLit "DE") (strLit "UTC") ⟨215, 60, strLit "clear sky", 47, -122⟩
      1 2) ≠ specKey (strLit "X") (strLit "ß") (strLit "DE") := by
  decide

/-- C9 (amended): for ASCII fields, lower-casing the display-cased fields
of a built record reproduces exactly its insertion key (title-casing and
upper-casing are invisible under lower-casing), so the per-cycle rebuild
of the key-to-record dict from the stored list preserves every entry and
never merges or splits keys; outside ASCII the round-trip fails (ß
upper-cases to "SS", whose lower-casing differs from that of ß). -/
theorem C9_rekey_roundtrip (env : Env) (city state country tz : Str)
    (obs : Observation) (la lo : Coord) (l : List WeatherRecord)
    (hc : asciiStr city = true) (hs : asciiStr state = true)
    (hk : asciiStr country = true) (h : (l.map recordKey).Nodup) :
    pyLower (pyTitle city) = pyLower city ∧
    pyLower (pyUpper state) = pyLower state ∧
    recordKey (buildRecord env city state country tz obs la lo) =
      specKey city state country ∧
    rebuildDict l = l.map (fun e => (recordKey e, e)) ∧
    (∀ e ∈ l, lookupD (rebuildDict l) (recordKey e) = some e) :=
  ⟨pyLower_pyTitle city hc, pyLower_pyUpper state hs,
   recordKey_buildRecord env city state country tz obs la lo hc hs hk,
   rebuildDict_eq_map l h,
   fun e he => rebuildDict_lookup l e he h⟩

/-- C9 witness: the round-trip at mixed-case ASCII inputs and a concrete
two-record store. -/
theorem C9_witness :
    pyLower (pyTitle (strLit "saN joSE")) = pyLower (strLit "saN joSE") ∧
    pyLower (pyUpper (strLit "ca")) = pyLower (strLit "ca") ∧
    recordKey (buildRecord envAllOk (strLit "saN joSE") (strLit "ca")
      (strLit "us") (strLit "America/Los_Angeles")
      ⟨215, 60, strLit "clear sky", 47, -122⟩ 1 2) =
      specKey (strLit "saN joSE") (strLit "ca") (strLit "us") ∧
    rebuildDict [recA, deltaOld] =
      [recA, deltaOld].map (fun e => (recordKey e, e)) ∧
    (∀ e ∈ [recA, deltaOld],
      lookupD (rebuildDict [recA, deltaOld]) (recordKey e) = some e) :=
  C9_rekey_roundtrip envAllOk (strLit "saN joSE") (strLit "ca") (strLit "us")
    (strLit "America/Los_Angeles") ⟨215, 60, strLit "clear sky", 47, -122⟩
    1 2 [recA, deltaOld] (by decide) (by decide) (by decide) (by decide)

/-- C10: a POST whose location form value is empty or whitespace-only is
skipped silently: the user-input step performs no fetch, no geocode and no
format-failure log (its event list is empty) and leaves the dict and list
untouched; the whole request behaves exactly like a GET. -/
theorem C10_blank_submission (env : Env) (loc : Str) (wdd : Dict)
    (wd1 wd0 : List WeatherRecord) (h : pyStrip loc = []) :
    userStep env loc wdd wd1 = (.doneU wdd wd1, []) ∧
    get_all_weather_data env ⟨.post, loc⟩ wd0 =
      get_all_weather_data env ⟨.get, loc⟩ wd0 := by
  refine ⟨userStep_empty env loc wdd wd1 h, ?_⟩
  rcases hr : refreshLoop env locations [] with ⟨o, ev1⟩
  rcases o with _ | refreshed
  · rw [handler_eq_abort env ⟨.post, loc⟩ wd0 ev1 hr,
      handler_eq_abort env ⟨.get, loc⟩ wd0 ev1 hr]
  · rw [handler_eq_get env ⟨.get, loc⟩ wd0 refreshed ev1 hr rfl,
      handler_eq_post_done env ⟨.post, loc⟩ wd0 refreshed
        (mergeDicts (rebuildDict wd0) refreshed)
        (dictValues (mergeDicts (rebuildDict wd0) refreshed)) ev1 [] hr rfl
        (userStep_empty env loc _ _ h)]
    simp

/-- C10 witness: a three-space submission into the all-success
environment. -/
theorem C10_witness :
    userStep envAllOk (strLit "   ") [] [] = (.doneU [] [], []) ∧
    get_all_weather_data envAllOk ⟨.post, strLit "   "⟩ [] =
      get_all_weather_data envAllOk ⟨.get, strLit "   "⟩ [] :=
  C10_blank_submission envAllOk (strLit "   ") [] [] [] (by decide)

/-- C5 counterexample: the submission "a,,b" splits into exactly three
comma-separated fields of which the middle one trims to empty, so the
claim demands a FormatFailure and an unchanged snapshot; the code instead
signals no format failure and merges a record (the user step's dict is no
longer the unchanged empty one). -/
theorem C5_counterexample :
    splitComma (pyStrip (strLit "a,,b")) = [strLit "a", [], strLit "b"] ∧
    (userStep envAllOk (strLit "a,,b") [] []).2.countP isFormatFailure = 0 ∧
    (userStep envAllOk (strLit "a,,b") [] []).1 ≠ .doneU [] [] := by
  decide

/-- C5 (amended): a user submission whose stripped form value is nonempty
and does not split into exactly three comma-separated fields is rejected:
the `ValueError` from unpacking is caught, the invalid format is logged,
no fetch or geocode happens, no record is built or merged, and the dict
and list are exactly as before the user-input step. Submissions with three
comma-separated fields are processed even when a trimmed field is empty. -/
theorem C5_format_rejection (env : Env) (loc : Str) (wdd : Dict)
    (wd1 : List WeatherRecord) (h0 : pyStrip loc ≠ [])
    (h3 : (splitComma (pyStrip loc)).length ≠ 3) :
    userStep env loc wdd wd1 =
      (.doneU wdd wd1, [.formatFailureLog (pyStrip loc)]) :=
  userStep_format_failure env loc wdd wd1 h0 h3

/-- C5 witness: the comma-free submission "invalid-format" is rejected
with only the format-failure log, leaving the empty snapshot unchanged. -/
theorem C5_witness :
    userStep envAllOk (strLit "invalid-format") [] [] =
      (.doneU [] [], [.formatFailureLog (pyStrip (strLit "invalid-format"))]) :=
  C5_format_rejection envAllOk (strLit "invalid-format") [] []
    (by decide) (by decide)

/-- C4 counterexample: a geocoder returning an empty (falsy) result on
every attempt: three attempts are made and all fail, yet nothing is
logged and no delay is slept — refuting both "waits a fixed 5-second
delay between consecutive attempts" and "logs every attempt failure
whether it is an exception or an empty result". -/
theorem C4_counterexample :
    (retry_geocode geoOracleEmpty (strLit "q") 3 5).1 = none ∧
    (retry_geocode geoOracleEmpty (strLit "q") 3 5).2 =
      [.geoCall (strLit "q"), .geoCall (strLit "q"),
       .geoCall (strLit "q")] := by
  decide

theorem retryGeocodeGo_geoCall_le (oracle : Nat → GeoAttempt) (q : Str)
    (delay : Nat) : ∀ fuel attempt,
    (retryGeocodeGo oracle q delay attempt fuel).2.countP isGeoCall ≤
      fuel := by
  intro fuel
  induction fuel with
  | zero => intro attempt; simp [retryGeocodeGo]
  | succ n ih =>
      intro attempt
      unfold retryGeocodeGo
      rcases oracle attempt with _ | _ | ⟨la, lo⟩ <;>
        simp [List.countP_cons, isGeoCall]
      · have := ih (attempt + 1)
        omega
      · have := ih (attempt + 1)
        omega

/-- A geocode attempt that is not truthy either raised or came back
empty. -/
theorem not_found_cases (g : GeoAttempt) (h : isFound g = false) :
    g = .raises ∨ g = .empty := by
  rcases g with _ | _ | ⟨a, b⟩
  · exact .inl rfl
  · exact .inr rfl
  · simp [isFound] at h

/-- C4 (amended): `retry_geocode` makes at most 3 geocode attempts,
short-circuits on the first truthy result, and a call failing twice then
succeeding on the third attempt returns the coordinates without
propagating the earlier failures; after 3 failed attempts it returns
`None` and never raises. However, the failure log and the 5-second sleep
accompany exactly those attempts that raised an exception: an attempt
returning an empty result is retried immediately with no log and no
delay (and the sleep also follows a raising final attempt). -/
theorem C4_retry_policy (oracle : Nat → GeoAttempt) (q : Str)
    (la lo : Coord) :
    (retry_geocode oracle q 3 5).2.countP isGeoCall ≤ 3 ∧
    (oracle 0 = .found la lo →
      retry_geocode oracle q 3 5 = (some (la, lo), [.geoCall q])) ∧
    (isFound (oracle 0) = false → isFound (oracle 1) = false →
      oracle 2 = .found la lo →
      (retry_geocode oracle q 3 5).1 = some (la, lo)) ∧
    (isFound (oracle 0) = false → isFound (oracle 1) = false →
      isFound (oracle 2) = false →
      (retry_geocode oracle q 3 5).1 = none ∧
      (retry_geocode oracle q 3 5).2.countP isGeoLog =
        (List.range 3).countP (fun i => isRaises (oracle i)) ∧
      (retry_geocode oracle q 3 5).2.countP isGeoSleep =
        (List.range 3).countP (fun i => isRaises (oracle i))) := by
  refine ⟨retryGeocodeGo_geoCall_le oracle q 5 3 0, ?_, ?_, ?_⟩
  · intro h
    simp [retry_geocode, retryGeocodeGo, h]
  · intro h0 h1 h2
    rcases not_found_cases _ h0 with e0 | e0 <;>
      rcases not_found_cases _ h1 with e1 | e1 <;>
        simp [retry_geocode, retryGeocodeGo, e0, e1, h2]
  · intro h0 h1 h2
    rcases not_found_cases _ h0 with e0 | e0 <;>
      rcases not_found_cases _ h1 with e1 | e1 <;>
        rcases not_found_cases _ h2 with e2 | e2 <;>
          simp [retry_geocode, retryGeocodeGo, e0, e1, e2, isGeoLog,
            isGeoSleep, isRaises, List.countP_cons, List.range_succ,
            List.countP_append]

/-- C4 witness: the amended claim at an immediately-successful geocoder,
at one succeeding on the third attempt after two exceptions, and at one
that raises once then keeps returning empty results. -/
theorem C4_witness :
    retry_geocode geoOracleFound (strLit "q") 3 5 =
      (some (7, 8), [.geoCall (strLit "q")]) ∧
    (retry_geocode geoOracleThird (strLit "q") 3 5).1 = some (7, 8) ∧
    (retry_geocode geoOracleFail (strLit "q") 3 5).1 = none ∧
    (retry_geocode geoOracleFail (strLit "q") 3 5).2.countP isGeoLog =
      (List.range 3).countP (fun i => isRaises (geoOracleFail i)) ∧
    (retry_geocode geoOracleFail (strLit "q") 3 5).2.countP isGeoSleep =
      (List.range 3).countP (fun i => isRaises (geoOracleFail i)) :=
  ⟨(C4_retry_policy geoOracleFound (strLit "q") 7 8).2.1 (by decide),
   (C4_retry_policy geoOracleThird (strLit "q") 7 8).2.2.1
     (by decide) (by decide) (by decide),
   ((C4_retry_policy geoOracleFail (strLit "q") 7 8).2.2.2
     (by decide) (by decide) (by decide)).1,
   ((C4_retry_policy geoOracleFail (strLit "q") 7 8).2.2.2
     (by decide) (by decide) (by decide)).2.1,
   ((C4_retry_policy geoOracleFail (strLit "q") 7 8).2.2.2
     (by decide) (by decide) (by decide)).2.2⟩

/-- A fetch, geocode, log or sleep event is not a timezone lookup. -/
theorem kinds_no_tzCall (e : Event)
    (h : isFetchCall e || isGeoCall e || isGeoLog e || isGeoSleep e) :
    isTzCall e = false := by
  rcases e <;>
    simp_all [isFetchCall, isGeoCall, isGeoLog, isGeoSleep, isTzCall]

/-- C8: a predefined location's record is built with its static timezone
identifier — its local time is the clock at the spec's timezone and the
whole refresh loop performs no coordinate-to-timezone lookup — while a
user-submitted location derives its timezone by coordinate lookup, and
when that lookup yields nothing the timezone defaults to UTC and the
record is still built and merged. -/
theorem C8_timezone (env : Env) (acc : Dict) (s : LocationSpec)
    (obs : Observation) (la lo : Coord) (loc : Str) (wdd : Dict)
    (wd1 : List WeatherRecord) (c0 s0 k0 : Str) (obs' : Observation)
    (la' lo' : Coord) (gev : List Event) :
    (∀ e ∈ (refreshLoop env locations acc).2, isTzCall e = false) ∧
    (fetch_weather_data (env.fetch s.city s.state s.country) =
        .ret (some obs) →
      (retry_geocode (env.geo (locQuery s.city s.state s.country))
        (locQuery s.city s.state s.country) 3 5).1 = some (la, lo) →
      (processLocation env s).1 =
        .merged (specKeyOf s)
          (buildRecord env s.city s.state s.country s.tz obs la lo) ∧
      (buildRecord env s.city s.state s.country s.tz obs la lo).local_time =
        env.now s.tz) ∧
    (pyStrip loc ≠ [] → splitComma (pyStrip loc) = [c0, s0, k0] →
      ¬(lookupD wdd
        (specKey (pyStrip c0) (pyStrip s0) (pyStrip k0))).isSome →
      fetch_weather_data
        (env.fetch (pyStrip c0) (pyStrip s0) (pyStrip k0)) =
          .ret (some obs') →
      retry_geocode
        (env.geo (locQuery (pyStrip c0) (pyStrip s0) (pyStrip k0)))
        (locQuery (pyStrip c0) (pyStrip s0) (pyStrip k0)) 3 5 =
          (some (la', lo'), gev) →
      env.tzAt lo' la' = none →
      (userStep env loc wdd wd1).1 =
        .doneU
          (dictInsert wdd (specKey (pyStrip c0) (pyStrip s0) (pyStrip k0))
            (userRecord env (pyStrip c0) (pyStrip s0) (pyStrip k0)
              obs' la' lo'))
          (dictValues
            (dictInsert wdd (specKey (pyStrip c0) (pyStrip s0) (pyStrip k0))
              (userRecord env (pyStrip c0) (pyStrip s0) (pyStrip k0)
                obs' la' lo'))) ∧
      .tzCall lo' la' ∈ (userStep env loc wdd wd1).2 ∧
      (userRecord env (pyStrip c0) (pyStrip s0) (pyStrip k0)
        obs' la' lo').local_time = env.now (strLit "UTC")) := by
  refine ⟨?_, ?_, ?_⟩
  · intro e he
    exact kinds_no_tzCall e (refreshLoop_event_kinds env locations acc e he)
  · intro hf hg
    exact ⟨processLocation_merged_of env s obs la lo hf hg, rfl⟩
  · intro h0 hs hk hf hg htz
    have he := userStep_insert env loc wdd wd1 c0 s0 k0 obs' la' lo' gev
      h0 hs hk hf hg
    refine ⟨by rw [he], by rw [he]; simp, ?_⟩
    simp [userRecord, buildRecord, tzOrUTC, htz]

/-- C8 witness: the all-success environment with an empty
timezone-by-coordinate table: the refresh trace has no timezone lookup,
Delta's record uses its static timezone, and the user submission
"Paris, IDF, FR" is built with the UTC default. -/
theorem C8_witness :
    (∀ e ∈ (refreshLoop envNoTz locations []).2, isTzCall e = false) ∧
    ((processLocation envNoTz deltaSpec).1 =
      .merged (specKeyOf deltaSpec)
        (buildRecord envNoTz (strLit "Delta") (strLit "BC") (strLit "Canada")
          (strLit "America/Vancouver")
          ⟨215, 60, strLit "clear sky", 47, -122⟩ 49 (-123)) ∧
     (buildRecord envNoTz (strLit "Delta") (strLit "BC") (strLit "Canada")
        (strLit "America/Vancouver")
        ⟨215, 60, strLit "clear sky", 47, -122⟩ 49 (-123)).local_time =
      envNoTz.now (strLit "America/Vancouver")) ∧
    ((userStep envNoTz (strLit "Paris, IDF, FR") [] []).1 =
      .doneU
        (dictInsert []
          (specKey (pyStrip (strLit "Paris")) (pyStrip (strLit " IDF"))
            (pyStrip (strLit " FR")))
          (userRecord envNoTz (pyStrip (strLit "Paris"))
            (pyStrip (strLit " IDF")) (pyStrip (strLit " FR"))
            ⟨215, 60, strLit "clear sky", 47, -122⟩ 49 (-123)))
        (dictValues
          (dictInsert []
            (specKey (pyStrip (strLit "Paris")) (pyStrip (strLit " IDF"))
              (pyStrip (strLit " FR")))
            (userRecord envNoTz (pyStrip (strLit "Paris"))
              (pyStrip (strLit " IDF")) (pyStrip (strLit " FR"))
              ⟨215, 60, strLit "clear sky", 47, -122⟩ 49 (-123)))) ∧
     .tzCall (-123) 49 ∈ (userStep envNoTz (strLit "Paris, IDF, FR") [] []).2 ∧
     (userRecord envNoTz (pyStrip (strLit "Paris")) (pyStrip (strLit " IDF"))
        (pyStrip (strLit " FR"))
        ⟨215, 60, strLit "clear sky", 47, -122⟩ 49 (-123)).local_time =
      envNoTz.now (strLit "UTC")) := by
  have H := C8_timezone envNoTz [] deltaSpec
    ⟨215, 60, strLit "clear sky", 47, -122⟩ 49 (-123)
    (strLit "Paris, IDF, FR") [] [] (strLit "Paris") (strLit " IDF")
    (strLit " FR") ⟨215, 60, strLit "clear sky", 47, -122⟩ 49 (-123)
    [.geoCall (locQuery (strLit "Paris") (strLit "IDF") (strLit "FR"))]
  exact ⟨H.1, H.2.1 (by decide) (by decide),
    H.2.2 (by decide) (by decide) (by decide) (by decide) (by decide) rfl⟩

/-- C6 counterexample: when the first location's fetch hits an HTTP-OK
response with missing fields, the uncaught `KeyError` aborts the whole
refresh cycle — the handler raises (no view is rendered) and no other
location is even fetched (the trace holds exactly the one fetch call),
refuting "every other location's merge still happens, and no per-location
failure aborts the whole refresh cycle". -/
theorem C6_counterexample :
    (get_all_weather_data envParseBug ⟨.get, []⟩ []).view = none ∧
    (get_all_weather_data envParseBug ⟨.get, []⟩ []).events =
      [.fetchCall (strLit "Delta") (strLit "BC") (strLit "Canada")] := by
  decide

/-- Distinct predefined locations carry distinct canonical keys. -/
theorem specKeyOf_inj (s1 s2 : LocationSpec) (h1 : s1 ∈ locations)
    (h2 : s2 ∈ locations) (he : specKeyOf s1 = specKeyOf s2) : s1 = s2 :=
  List.inj_on_of_nodup_map (by decide) h1 h2 he

/-- C6 (amended): provided no predefined location's fetch raises (no
parse exception), a location whose fetch returns no observation or whose
geocoding resolves nothing is omitted from the cycle's merge — its key is
absent from the refreshed dict, the merged dict still answers exactly as
the re-keyed prior snapshot for that key, and any prior record for it is
returned byte-for-byte — while every location's fetch still happens and
the cycle completes. A fetch that raises, however, aborts the whole
refresh (see the counterexample). -/
theorem C6_frame (env : Env) (wd0 : List WeatherRecord) (s0 : LocationSpec)
    (hnr : ∀ s ∈ locations,
      fetch_weather_data (env.fetch s.city s.state s.country) ≠ .exn)
    (hmem : s0 ∈ locations)
    (hfail : fetch_weather_data (env.fetch s0.city s0.state s0.country) =
        .ret none ∨
      (retry_geocode (env.geo (locQuery s0.city s0.state s0.country))
        (locQuery s0.city s0.state s0.country) 3 5).1 = none) :
    ∃ (d : Dict) (ev : List Event),
      refreshLoop env locations [] = (some d, ev) ∧
      (∀ s ∈ locations, .fetchCall s.city s.state s.country ∈ ev) ∧
      lookupD d (specKeyOf s0) = none ∧
      lookupD (mergeDicts (rebuildDict wd0) d) (specKeyOf s0) =
        lookupD (rebuildDict wd0) (specKeyOf s0) ∧
      (∀ e ∈ wd0, recordKey e = specKeyOf s0 →
        (wd0.map recordKey).Nodup →
        lookupD (mergeDicts (rebuildDict wd0) d) (specKeyOf s0) =
          some e) := by
  have hskip : (processLocation env s0).1 = .skip := by
    rcases hfail with hf | hg
    · rw [processLocation_skip_of_fetch_none env s0 hf]
    · rcases hfo : fetch_weather_data (env.fetch s0.city s0.state s0.country)
        with ro | _
      · rcases ro with _ | obs
        · rw [processLocation_skip_of_fetch_none env s0 hfo]
        · exact processLocation_skip_of_geo_none env s0 obs hfo hg
      · exact absurd hfo (hnr s0 hmem)
  have hnoraise : ∀ s ∈ locations, (processLocation env s).1 ≠ .raised :=
    fun s hs => processLocation_not_raised env s (hnr s hs)
  have hsome := refreshLoop_some env locations hnoraise []
  obtain ⟨d, hd⟩ := Option.isSome_iff_exists.1 hsome
  have hres : refreshLoop env locations [] =
      (some d, (refreshLoop env locations []).2) := by
    rw [← hd]
  have hnm : ∀ s ∈ locations, ∀ r : WeatherRecord,
      (processLocation env s).1 ≠ .merged (specKeyOf s0) r := by
    intro s hs r hcon
    have hks := processLocation_merged_key env s (specKeyOf s0) r hcon
    have hseq : s = s0 := specKeyOf_inj s s0 hs hmem hks.symm
    subst hseq
    rw [hskip] at hcon
    cases hcon
  have hun : lookupD d (specKeyOf s0) = lookupD [] (specKeyOf s0) :=
    refreshLoop_lookup_untouched env locations (specKeyOf s0) hnm [] d _ hres
  have hnone : lookupD d (specKeyOf s0) = none := hun
  refine ⟨d, (refreshLoop env locations []).2, hres,
    fun s hs => refreshLoop_events_fetch env locations hnoraise [] s hs,
    hnone, lookupD_mergeDicts_of_none d (specKeyOf s0) (rebuildDict wd0)
      hnone, ?_⟩
  intro e he hkey hnd
  rw [lookupD_mergeDicts_of_none d (specKeyOf s0) (rebuildDict wd0) hnone,
    ← hkey]
  exact rebuildDict_lookup wd0 e he hnd

/-- C6 witness: an environment in which every fetch returns a 404, a
prior snapshot holding a stale Delta record, and Delta as the failing
location. -/
theorem C6_witness :
    ∃ (d : Dict) (ev : List Event),
      refreshLoop envFetch404 locations [] = (some d, ev) ∧
      (∀ s ∈ locations, .fetchCall s.city s.state s.country ∈ ev) ∧
      lookupD d (specKeyOf deltaSpec) = none ∧
      lookupD (mergeDicts (rebuildDict [deltaOld]) d)
        (specKeyOf deltaSpec) =
        lookupD (rebuildDict [deltaOld]) (specKeyOf deltaSpec) ∧
      (∀ e ∈ [deltaOld], recordKey e = specKeyOf deltaSpec →
        ([deltaOld].map recordKey).Nodup →
        lookupD (mergeDicts (rebuildDict [deltaOld]) d)
          (specKeyOf deltaSpec) = some e) :=
  C6_frame envFetch404 [deltaOld] deltaSpec (by decide) (by decide)
    (.inl (by decide))

/-- Every rendered view is the sort of some list, and is exactly the
post-request snapshot. -/
theorem handler_view_sorted (env : Env) (req : Request)
    (wd0 : List WeatherRecord) (v : List WeatherRecord)
    (h : (get_all_weather_data env req wd0).view = some v) :
    (get_all_weather_data env req wd0).state = v ∧ ∃ w, v = sortRecords w := by
  rcases hr : refreshLoop env locations [] with ⟨o, ev1⟩
  rcases o with _ | refreshed
  · rw [handler_eq_abort env req wd0 ev1 hr] at h
    cases h
  · rcases hm : req.method with _ | _
    · rw [handler_eq_get env req wd0 refreshed ev1 hr hm] at h ⊢
      injection h with hv
      exact ⟨hv, _, hv.symm⟩
    · rcases hu : userStep env req.formLocation
          (mergeDicts (rebuildDict wd0) refreshed)
          (dictValues (mergeDicts (rebuildDict wd0) refreshed)) with ⟨uo, ev2⟩
      rcases uo with _ | ⟨wdd2, wd2⟩
      · rw [handler_eq_post_raised env req wd0 refreshed ev1 ev2
          hr hm hu] at h
        cases h
      · rw [handler_eq_post_done env req wd0 refreshed wdd2 wd2 ev1 ev2
          hr hm hu] at h ⊢
        injection h with hv
        exact ⟨hv, wd2, hv.symm⟩

/-- C7: whenever a request completes, the emitted view is sorted
non-decreasing by the display (country, state, city) triple under
code-point string order, and it is exactly the post-request snapshot;
the sort is recomputed from the current snapshot on every call — for any
stored order, `sortRecords` returns a sorted permutation of its input. -/
theorem C7_sorted_view (env : Env) (req : Request)
    (wd0 v l : List WeatherRecord)
    (h : (get_all_weather_data env req wd0).view = some v) :
    v.Pairwise (fun a b => tripleLe (sortKey a) (sortKey b)) ∧
    (get_all_weather_data env req wd0).state = v ∧
    (sortRecords l).Perm l ∧
    (sortRecords l).Pairwise
      (fun a b => tripleLe (sortKey a) (sortKey b)) := by
  obtain ⟨hstate, w, rfl⟩ := handler_view_sorted env req wd0 v h
  exact ⟨sortRecords_sorted w, hstate, sortRecords_perm l,
    sortRecords_sorted l⟩

/-- C7 witness: a GET against the all-success environment, and the sort
applied to a concrete unsorted two-record list. -/
theorem C7_witness :
    ((get_all_weather_data envAllOk ⟨.get, []⟩ []).state).Pairwise
      (fun a b => tripleLe (sortKey a) (sortKey b)) ∧
    (get_all_weather_data envAllOk ⟨.get, []⟩ []).state =
      (get_all_weather_data envAllOk ⟨.get, []⟩ []).state ∧
    (sortRecords [recA, deltaOld]).Perm [recA, deltaOld] ∧
    (sortRecords [recA, deltaOld]).Pairwise
      (fun a b => tripleLe (sortKey a) (sortKey b)) :=
  C7_sorted_view envAllOk ⟨.get, []⟩ []
    ((get_all_weather_data envAllOk ⟨.get, []⟩ []).state) [recA, deltaOld]
    (by decide)

/-- C1 counterexample: a POST of "X, ß, DE" (ß is code point 223) stores
its record under the key ("x", "ß", "de") while its display state field is
the upper-cased expansion "SS"; the next request rebuilds that record
under the lower-cased key ("x", "ss", "de"), so the same submission's key
is absent again and a second identical POST inserts a second record — the
completed request leaves two snapshot records sharing the lower-cased
LocationKey ("x", "ss", "de"), refuting the uniqueness invariant. -/
theorem C1_counterexample :
    ((get_all_weather_data envAllOk ⟨.post, strLit "X, ß, DE"⟩
        (get_all_weather_data envAllOk ⟨.post, strLit "X, ß, DE"⟩
          []).state).view).isSome = true ∧
    ¬ (((get_all_weather_data envAllOk ⟨.post, strLit "X, ß, DE"⟩
        (get_all_weather_data envAllOk ⟨.post, strLit "X, ß, DE"⟩
          []).state).state).map recordKey).Nodup := by
  set_option maxRecDepth 4000 in decide

/-- C1 (amended): after any completed request whose POST form value (if
any) is ASCII, the snapshot holds at most one record per LocationKey (the
lower-cased key map of the stored list has no duplicate); and when every
predefined location's fetch returns an observation and its geocoding
resolves, a GET refresh leaves exactly one record per predefined
LocationKey. A non-ASCII submission such as "X, ß, DE" breaks the
invariant: its display casing re-keys on rebuild, so repeating it
duplicates a lower-cased key. -/
theorem C1_unique_keys (env : Env) (req : Request)
    (wd0 v : List WeatherRecord)
    (hascii : req.method = .post → asciiStr req.formLocation = true)
    (h : (get_all_weather_data env req wd0).view = some v) :
    ((get_all_weather_data env req wd0).state.map recordKey).Nodup ∧
    ((∀ s ∈ locations,
        isRetSome (fetch_weather_data
          (env.fetch s.city s.state s.country)) ∧
        (retry_geocode (env.geo (locQuery s.city s.state s.country))
          (locQuery s.city s.state s.country) 3 5).1.isSome) →
      req.method = .get →
      ∀ s ∈ locations,
        (get_all_weather_data env req wd0).state.countP
          (fun e => recordKey e = specKeyOf s) = 1) := by
  obtain ⟨hstate, hnd⟩ := handler_state_of_view env req wd0 v hascii h
  refine ⟨by rw [hstate]; exact hnd, ?_⟩
  intro hall hm s hs
  have hsrc : ∀ s' ∈ locations, ∃ obs la lo,
      fetch_weather_data (env.fetch s'.city s'.state s'.country) =
        .ret (some obs) ∧
      (retry_geocode (env.geo (locQuery s'.city s'.state s'.country))
        (locQuery s'.city s'.state s'.country) 3 5).1 = some (la, lo) := by
    intro s' hs'
    obtain ⟨hf, hg⟩ := hall s' hs'
    rcases hfo : fetch_weather_data (env.fetch s'.city s'.state s'.country)
      with ro | _
    · rcases ro with _ | obs
      · rw [hfo] at hf
        cases hf
      · rcases hgo : (retry_geocode
            (env.geo (locQuery s'.city s'.state s'.country))
            (locQuery s'.city s'.state s'.country) 3 5).1 with _ | ⟨la, lo⟩
        · rw [hgo] at hg
          cases hg
        · exact ⟨obs, la, lo, rfl, rfl⟩
    · rw [hfo] at hf
      cases hf
  have hnoraise : ∀ s' ∈ locations,
      (processLocation env s').1 ≠ .raised := by
    intro s' hs'
    obtain ⟨obs, la, lo, hfo, _⟩ := hsrc s' hs'
    refine processLocation_not_raised env s' ?_
    rw [hfo]
    intro hc
    cases hc
  have hsome := refreshLoop_some env locations hnoraise []
  obtain ⟨d, hd⟩ := Option.isSome_iff_exists.1 hsome
  have hres : refreshLoop env locations [] =
      (some d, (refreshLoop env locations []).2) := by
    rw [← hd]
  have hprops := refreshLoop_nodup_wf env locations locations_ascii [] d _
    hres (by simp [dictKeys]) (by intro kv hkv; cases hkv)
  obtain ⟨hndm, hwfm, _⟩ := merged_dict_nodup wd0 d hprops.2
  obtain ⟨obs, la, lo, hfo, hgo⟩ := hsrc s hs
  have hmerged := processLocation_merged_of env s obs la lo hfo hgo
  have hins := refreshLoop_inserted env locations s hs (specKeyOf s) _
    hmerged [] d _ hres
  have hinm : (lookupD (mergeDicts (rebuildDict wd0) d)
      (specKeyOf s)).isSome :=
    lookupD_mergeDicts_isSome d (specKeyOf s) (rebuildDict wd0) hins
  have hmemk : specKeyOf s ∈ dictKeys (mergeDicts (rebuildDict wd0) d) :=
    (lookupD_isSome_iff _ _).1 hinm
  rw [handler_eq_get env req wd0 d _ hres hm]
  show (sortRecords (dictValues (mergeDicts (rebuildDict wd0) d))).countP
    (fun e => recordKey e = specKeyOf s) = 1
  rw [sortRecords_countP, countP_dictValues _ (specKeyOf s) hwfm]
  exact countP_eq_one_of_nodup_mem _ _ hndm hmemk

/-- C1 witness: a GET against the all-success environment starting from
the empty snapshot: the key map of the resulting snapshot has no
duplicates and every predefined key holds exactly one record. -/
theorem C1_witness :
    ((get_all_weather_data envAllOk ⟨.get, []⟩ []).state.map
      recordKey).Nodup ∧
    (∀ s ∈ locations,
      (get_all_weather_data envAllOk ⟨.get, []⟩ []).state.countP
        (fun e => recordKey e = specKeyOf s) = 1) := by
  have H := C1_unique_keys envAllOk ⟨.get, []⟩ []
    ((get_all_weather_data envAllOk ⟨.get, []⟩ []).state) (by decide)
    (by decide)
  exact ⟨H.1, H.2 (by decide) rfl⟩
